import Mathlib

/-!
# wdns: request admission and dispatch pipeline

A shallow embedding of the Go sources of `exiguus/wdns`:

* `internal/api/types.go`        : `RequestPayload`, `ResponsePayload`, `Validate`
* `internal/handler/clientip.go` : `ipInNets`, `ClientIP`
* `internal/ratelimit/limiter.go`: `Manager`, `getIP`, `Allow`, `Cleanup`
* `internal/resolver/runner.go`  : `Runner`, `Run`, `buildKdigCommand`, `buildKdigArgs`
* `internal/handler/handler.go`  : `handleRateLimit`, `makeQueryHandler` and helpers

Go strings are Lean strings, Go `int` is `Int`, byte slices are lists of bytes.
Stateful code passes its state explicitly; the wall clock, the child process
and the functions of Go's standard library that are not reproduced here are
inputs of the definitions that use them.
-/

namespace Wdns

/-! ## Package `api` (`internal/api/types.go`) -/

/-- The incoming JSON request (`RequestPayload` in `types.go`); the field `Type` of the
source is `Type_` here, `Type` being reserved. -/
structure RequestPayload where
  Nameserver : String
  Short : Bool
  DNSSEC : Bool
  Type_ : String
  Transport : String
  Name : String
  AsJSON : Bool
  deriving DecidableEq, Repr

/-- The constants `http.StatusOK`, `http.StatusBadRequest`, ... of `net/http`. -/
def StatusOK : Nat := 200
def StatusBadRequest : Nat := 400
def StatusMethodNotAllowed : Nat := 405
def StatusTooManyRequests : Nat := 429
def StatusInternalServerError : Nat := 500

/-- `Validate` of `types.go`: the triple `(ok, httpStatus, errorMessage)`. -/
def Validate (req : RequestPayload) : Bool × Nat × String :=
  if req.Nameserver = "" then
    (false, StatusBadRequest, "\"nameserver\" must not be empty")
  else if req.Name = "" then
    (false, StatusBadRequest, "\"name\" must not be empty")
  else if req.Type_ ≠ "AAAA" ∧ req.Type_ ≠ "A" then
    (false, StatusBadRequest, "\"type\" must be \"AAAA\" or \"A\"")
  else if req.Transport ≠ "tls" ∧ req.Transport ≠ "https" ∧ req.Transport ≠ "tcp"
      ∧ req.Transport ≠ "" then
    (false, StatusBadRequest, "\"transport\" must be empty or \"tcp\" or \"tls\" or \"https\"")
  else
    (true, StatusOK, "")

/-! ## Go standard library: `strings`, `unicode`, `net`

The repository calls a handful of functions of Go's standard library.  Those
that are plain text manipulation (`strings.Split`, `strings.TrimSpace`,
`strings.Join`, the ASCII part of `strings.ToLower`) are written out below.
Those whose result depends on tables or parsers that are not reproduced here
(`net.SplitHostPort`, `net.ParseIP`, `(*net.IPNet).Contains`, the non-ASCII part
of `unicode.ToLower`, `encoding/json`) are the fields of `GoLib`, and every
definition that calls one of them takes the library as its first argument.
-/

/-- A byte slice (`[]byte`). -/
abbrev Bytes := List UInt8

/-- The type `net.IP`: a byte slice; the nil slice is the empty list. -/
abbrev IP := List UInt8

/-- The type `net.IPNet`: a network number and its mask. -/
structure IPNet where
  IP : IP
  Mask : List UInt8
  deriving DecidableEq, Repr

/-- The functions of Go's standard library that the code calls and that are not written
out in this file.
* `SplitHostPort s` is `some (host, port)` when `net.SplitHostPort(s)` returns a nil error,
  `none` when it returns an error;
* `ParseIP s` is `net.ParseIP(s)`, the empty list standing for the nil result;
* `Contains n ip` is `n.Contains(ip)`;
* `ToLowerRune r` is `unicode.ToLower(r)` for a rune `r` outside ASCII;
* `DecodeJSON body` is `json.NewDecoder(body).Decode(&payload)`: the decoded payload, or
  the text of the error;
* `ValidJSON out` tells whether `json.Unmarshal(out, &parsed)` returns a nil error. -/
structure GoLib where
  SplitHostPort : String → Option (String × String)
  ParseIP : String → IP
  Contains : IPNet → IP → Bool
  ToLowerRune : Char → Char
  DecodeJSON : String → Except String RequestPayload
  ValidJSON : Bytes → Bool

/-- The pieces of `s` between the occurrences of `sep` (`strings.Split` on characters):
one more piece than there are separators, so the empty text gives one empty piece. -/
def splitChars (sep : Char) : List Char → List (List Char)
  | [] => [[]]
  | c :: cs =>
    if c = sep then [] :: splitChars sep cs
    else
      match splitChars sep cs with
      | [] => [[c]]
      | p :: ps => (c :: p) :: ps

/-- The call `strings.Split(s, sep)` for a separator of one character. -/
def Split (s : String) (sep : Char) : List String :=
  (splitChars sep s.data).map String.mk

/-- The predicate `unicode.IsSpace`: the Latin-1 cases of its switch, then the ranges of the
`White_Space` table above Latin-1. -/
def IsSpace (r : Char) : Bool :=
  let n := r.toNat
  if n ≤ 0xFF then
    n = 0x09 || n = 0x0A || n = 0x0B || n = 0x0C || n = 0x0D || n = 0x20 || n = 0x85 || n = 0xA0
  else
    n = 0x1680 || (0x2000 ≤ n && n ≤ 0x200A) || n = 0x2028 || n = 0x2029 || n = 0x202F
      || n = 0x205F || n = 0x3000

/-- The call `strings.TrimSpace(s)`: `s` without its leading and trailing white space. -/
def TrimSpace (s : String) : String :=
  String.mk ((s.data.dropWhile IsSpace).reverse.dropWhile IsSpace).reverse

/-- The call `strings.ToLower(s)`: every rune mapped by `unicode.ToLower`, which on ASCII
moves `A`..`Z` to `a`..`z` and keeps every other character, and beyond ASCII is the table
`ToLowerRune` of the library. -/
def ToLower (L : GoLib) (s : String) : String :=
  String.mk (s.data.map fun c =>
    if c.toNat < 0x80 then
      (if 'A'.toNat ≤ c.toNat ∧ c.toNat ≤ 'Z'.toNat then Char.ofNat (c.toNat + 32) else c)
    else L.ToLowerRune c)

/-- The call `strings.Join(elems, sep)`. -/
def Join : List String → String → String
  | [], _ => ""
  | [a], _ => a
  | a :: b :: rest, sep => a ++ sep ++ Join (b :: rest) sep

/-! ## Package `handler`: client address (`internal/handler/clientip.go`) -/

/-- The part of `http.Request` the handlers read. `Header k` is `req.Header.Get(k)` (the
empty text when the header is absent), `Path` is `req.URL.Path`, `Body` the request body. -/
structure Request where
  Method : String
  RemoteAddr : String
  Header : String → String
  Path : String
  Body : String

/-- The function `ipInNets` of `clientip.go`: whether `ip` is contained in any of the nets. -/
def ipInNets (L : GoLib) (ip : IP) (nets : List IPNet) : Bool :=
  if ip = [] then false
  else nets.any fun n => L.Contains n ip

/-- The closure `hostFromRemote` of `ClientIP`: the host of `req.RemoteAddr`, or
`req.RemoteAddr` itself when it does not split. -/
def hostFromRemote (L : GoLib) (req : Request) : String :=
  match L.SplitHostPort req.RemoteAddr with
  | some (host, _) => host
  | none => req.RemoteAddr

/-- The loop of `ClientIP` over the parts of `X-Forwarded-For`: the first trimmed part that
parses and lies in no trusted net, `none` when the loop ends without returning. -/
def firstUntrusted (L : GoLib) (trusted : List IPNet) : List String → Option String
  | [] => none
  | p :: parts =>
    let ipStr := TrimSpace p
    let ip := L.ParseIP ipStr
    if ip = [] then firstUntrusted L trusted parts
    else if !ipInNets L ip trusted then some ipStr
    else firstUntrusted L trusted parts

/-- The function `ClientIP` of `clientip.go`. -/
def ClientIP (L : GoLib) (req : Request) (trusted : List IPNet) : String :=
  if trusted.length = 0 then hostFromRemote L req
  else
    let xff := req.Header "X-Forwarded-For"
    match (if xff ≠ "" then firstUntrusted L trusted (Split xff ',') else none) with
    | some ipStr => ipStr
    | none =>
      let xr := TrimSpace (req.Header "X-Real-IP")
      if xr ≠ "" ∧ L.ParseIP xr ≠ [] ∧ !ipInNets L (L.ParseIP xr) trusted then xr
      else hostFromRemote L req

/-! ## Package `ratelimit` (`internal/ratelimit/limiter.go`) -/

/-- Modelled from the spec: the token bucket `rate.Limiter` of `golang.org/x/time/rate`,
which `limiter.go` imports and whose code is not among the sources. A bucket holds its
refill rate in tokens per second, its burst capacity, its current number of tokens and the
time of its last refill, in seconds. Numbers are exact rationals and the clock is an
argument of each call. -/
structure Limiter where
  limit : ℚ
  burst : Int
  tokens : ℚ
  last : ℚ
  deriving DecidableEq

/-- Modelled from the spec: `rate.NewLimiter(r, b)`, a bucket holding its full burst. -/
def NewLimiter (r : ℚ) (b : Int) : Limiter :=
  { limit := r, burst := b, tokens := b, last := 0 }

/-- Modelled from the spec: the tokens of the bucket at time `now`, continuous refill at
the configured rate since the last refill, capped at the burst. -/
def Limiter.advance (lim : Limiter) (now : ℚ) : ℚ :=
  min (lim.burst : ℚ) (lim.tokens + max 0 (now - lim.last) * lim.limit)

/-- Modelled from the spec: `lim.AllowN(now, n)` attempts to consume `n` tokens at once;
it answers true and consumes them when they are available, and answers false and leaves
the bucket as it was otherwise. -/
def Limiter.AllowN (lim : Limiter) (now : ℚ) (n : Int) : Bool × Limiter :=
  let tokens := lim.advance now
  if n ≤ lim.burst ∧ (n : ℚ) ≤ tokens then
    (true, { lim with tokens := tokens - n, last := now })
  else
    (false, lim)

/-- Modelled from the spec: `lim.Allow()`, which is `lim.AllowN(time.Now(), 1)`. -/
def Limiter.Allow (lim : Limiter) (now : ℚ) : Bool × Limiter :=
  lim.AllowN now 1

/-- The struct `Manager` without its mutex: the map from client key to bucket, and the
settings every new bucket gets. -/
structure Manager where
  limiters : String → Option Limiter
  rps : ℚ
  burst : Int

/-- The function `NewManager`: an empty table. -/
def NewManager (rps : ℚ) (burst : Int) : Manager :=
  { limiters := fun _ => none, rps := rps, burst := burst }

/-- The function `getIP`: the host of `host:port`, or the input when it does not split. -/
def getIP (L : GoLib) (hostport : String) : String :=
  match L.SplitHostPort hostport with
  | some (host, _) => host
  | none => hostport

/-- The method `Manager.Allow`, called when the clock reads `now`: looks the bucket of the
key up, creates and stores it when there is none, then calls `Allow` on it, which updates
the bucket through the pointer the table holds. -/
def Manager.Allow (L : GoLib) (m : Manager) (now : ℚ) (remote : String) : Bool × Manager :=
  let ip := getIP L remote
  let found : Limiter × (String → Option Limiter) :=
    match m.limiters ip with
    | some limiter => (limiter, m.limiters)
    | none =>
      let limiter := NewLimiter m.rps m.burst
      (limiter, Function.update m.limiters ip (some limiter))
  let r := found.1.Allow now
  (r.1, { m with limiters := Function.update found.2 ip (some r.2) })

/-- One firing of the ticker in `Manager.Cleanup`: the loop over the table. `nowAt ip` is
what `time.Now()` reads when the bucket of `ip` is inspected. A bucket that permits
`m.burst` tokens is deleted; any other stays, as `AllowN` left it. -/
def Manager.sweep (m : Manager) (nowAt : String → ℚ) : Manager :=
  { m with limiters := fun ip =>
      match m.limiters ip with
      | none => none
      | some limiter =>
        let r := limiter.AllowN (nowAt ip) m.burst
        if r.1 then none else some r.2 }

/-- The method `Manager.Cleanup`: the `select` loop, given the channel events in the order
they are received, `some nowAt` for a firing of the ticker and `none` for `stop`. -/
def Manager.Cleanup (m : Manager) : List (Option (String → ℚ)) → Manager
  | [] => m
  | none :: _ => m
  | some nowAt :: events => (m.sweep nowAt).Cleanup events

/-- A sequence of `Allow` calls, each with the time it is made at and its argument: the
answers in order, and the manager after the last call. -/
def Manager.allowAll (L : GoLib) (m : Manager) : List (ℚ × String) → List Bool × Manager
  | [] => ([], m)
  | (now, remote) :: calls =>
    let r := m.Allow L now remote
    let rest := r.2.allowAll L calls
    (r.1 :: rest.1, rest.2)

/-! ## Package `resolver` (`internal/resolver/runner.go`) -/

/-- The struct `Runner` without its logger; `Timeout` is a `time.Duration` in nanoseconds. -/
structure Runner where
  Timeout : Int
  MaxOutput : Int
  deriving DecidableEq, Repr

/-- The function `NewRunner`. -/
def NewRunner (timeout : Int) (maxOutput : Int) : Runner :=
  { Timeout := timeout, MaxOutput := maxOutput }

/-- The function `buildKdigCommand`: the writes to the string builder, in order. -/
def buildKdigCommand (L : GoLib) (req : RequestPayload) : String :=
  let builder := "kdig"
  let builder := builder ++ " @"
  let builder := builder ++ req.Nameserver
  let builder := builder ++ " "
  let builder := builder ++ req.Name
  let builder := builder ++ " "
  let builder := builder ++ req.Type_
  let lowered := ToLower L req.Transport
  let builder :=
    if lowered = "tcp" then builder ++ " +tcp"
    else if lowered = "tls" then builder ++ " +tls"
    else if lowered = "https" then builder ++ " +https"
    else builder
  let builder := if req.DNSSEC then builder ++ " +dnssec +do" else builder
  let builder := if req.AsJSON then builder ++ " +json" else builder
  let builder := if req.Short then builder ++ " +short" else builder
  builder

/-- The function `buildKdigArgs`: the appends to the argument slice, in order. -/
def buildKdigArgs (L : GoLib) (req : RequestPayload) : List String :=
  let args : List String := []
  let args := args ++ ["@" ++ req.Nameserver]
  let args := args ++ [req.Name]
  let args := args ++ [req.Type_]
  let lowered := ToLower L req.Transport
  let args :=
    if lowered = "tcp" then args ++ ["+tcp"]
    else if lowered = "tls" then args ++ ["+tls"]
    else if lowered = "https" then args ++ ["+https"]
    else args
  let args := if req.DNSSEC then args ++ ["+dnssec", "+do"] else args
  let args := if req.AsJSON then args ++ ["+json"] else args
  let args := if req.Short then args ++ ["+short"] else args
  args

/-- What `cmd.Output()` gives back for one run of `kdig`: standard output and a nil error,
or an error. `cause` is the text of the error; `exitStderr` is `some s` when the error is
an `*exec.ExitError`, `s` being its captured standard error as text. -/
inductive ExecResult where
  | ok (out : Bytes)
  | failed (cause : String) (exitStderr : Option String)
  deriving DecidableEq, Repr

/-- The method `Runner.Run`, given what running `kdig` with the arguments produces: the
output, the command string and the error (`none` for nil). -/
def Run (L : GoLib) (exec : List String → ExecResult) (r : Runner) (req : RequestPayload) :
    Bytes × String × Option String :=
  let cmdStr := buildKdigCommand L req
  let args := buildKdigArgs L req
  match exec args with
  | ExecResult.failed cause exitStderr =>
    let err :=
      match exitStderr with
      | some stderr =>
        if stderr.length > 0 then "kdig failed: " ++ cause ++ ": " ++ TrimSpace stderr
        else "kdig failed: " ++ cause
      | none => "kdig failed: " ++ cause
    ([], cmdStr, some err)
  | ExecResult.ok out =>
    let out := if r.MaxOutput > 0 ∧ (out.length : Int) > r.MaxOutput
      then out.take r.MaxOutput.toNat else out
    (out, cmdStr, none)

/-- How one run of `kdig`, started by `exec.CommandContext(ctx, "kdig", args...)` under the
context with the runner's timeout, comes to its end, as package `os/exec` of the standard
library handles it:
* `exited`: the process ends by itself with status 0, leaving its standard output;
* `exitedNonZero`: the process ends by itself with a status other than 0; `cause` is the
  text of the `*exec.ExitError` (`exit status 1`);
* `killedByContext`: the context is done (deadline passed or request cancelled) while the
  process runs; `os/exec` kills the process and `Wait` reports the `*exec.ExitError` of the
  killed process (`signal: killed`), with what the process wrote to standard error before;
* `contextDoneBeforeStart`: the context is done before the process is started; `Start`
  returns the error of the context (`context deadline exceeded`, `context canceled`);
* `startFailed`: the process cannot be started (`kdig` is not found). -/
inductive Ending where
  | exited (stdout : Bytes)
  | exitedNonZero (cause : String) (stderr : String)
  | killedByContext (stderr : String)
  | contextDoneBeforeStart (ctxErr : String)
  | startFailed (cause : String)
  deriving DecidableEq, Repr

/-- The ending is a timeout or a cancellation: the context was done before the process
had ended by itself. -/
def Ending.byContext : Ending → Bool
  | Ending.killedByContext _ => true
  | Ending.contextDoneBeforeStart _ => true
  | _ => false

/-- What `cmd.Output()` returns for an ending: the error is an `*exec.ExitError`, with the
captured standard error, exactly when a started process ended with a status other than 0
or was killed. -/
def Output : Ending → ExecResult
  | Ending.exited stdout => ExecResult.ok stdout
  | Ending.exitedNonZero cause stderr => ExecResult.failed cause (some stderr)
  | Ending.killedByContext stderr => ExecResult.failed "signal: killed" (some stderr)
  | Ending.contextDoneBeforeStart ctxErr => ExecResult.failed ctxErr none
  | Ending.startFailed cause => ExecResult.failed cause none

/-! ## Package `handler`: the `/query` handler (`internal/handler/handler.go`) -/

/-- The field `Answer` of the response (`interface{}` in the source): nil, the output as
text (`string(out)`), or the value `json.Unmarshal` decoded from the output, kept as the
bytes it was decoded from. -/
inductive Answer where
  | null
  | text (out : Bytes)
  | parsed (out : Bytes)
  deriving DecidableEq, Repr

/-- The struct `ResponsePayload` of `types.go`. -/
structure ResponsePayload where
  Status : Nat
  Success : Bool
  Timestamp : String
  Request : RequestPayload
  Command : String
  Answer : Answer
  Error : String
  deriving DecidableEq, Repr

/-- What a handler did to its `http.ResponseWriter`: the headers set, the status passed to
`WriteHeader` and the payload encoded into the body. -/
structure ResponseWriter where
  Header : List (String × String)
  Status : Option Nat
  Body : Option ResponsePayload
  deriving DecidableEq, Repr

/-- A writer nothing has been written to. -/
def ResponseWriter.new : ResponseWriter :=
  { Header := [], Status := none, Body := none }

/-- The call `w.Header().Set(key, value)`. -/
def ResponseWriter.SetHeader (w : ResponseWriter) (key value : String) : ResponseWriter :=
  { w with Header := (key, value) :: w.Header.filter fun kv => kv.1 ≠ key }

/-- The call `w.Header().Get(key)`. -/
def ResponseWriter.GetHeader (w : ResponseWriter) (key : String) : String :=
  match w.Header.find? fun kv => kv.1 = key with
  | some kv => kv.2
  | none => ""

/-- What the handler does besides writing the response, in the order it does it: the calls to
the limiter and to the resolver, and the log records. -/
inductive Event where
  | allow (key : String)
  | logRequest (method remote path : String)
  | logQuery (payload : RequestPayload) (client : String)
  | run (payload : RequestPayload)
  | logEmpty (payload : RequestPayload) (client : String) (err : Option String)
  deriving DecidableEq, Repr

/-- What one request meets outside the program: the reading of the clock when the limiter is
asked, the text `time.Now().Format(time.RFC3339)` gives when the response is built, and what
running `kdig` with given arguments produces. -/
structure World where
  now : ℚ
  timestamp : String
  exec : List String → ExecResult

/-- The function `emptyRequestPayload`. -/
def emptyRequestPayload : RequestPayload :=
  { Nameserver := "", Name := "", Type_ := "A", Transport := "udp", DNSSEC := false,
    Short := false, AsJSON := false }

/-- The function `writeJSON`. -/
def writeJSON (w : ResponseWriter) (resp : ResponsePayload) : ResponseWriter :=
  let w := w.SetHeader "Content-Type" "application/json"
  { w with Status := some resp.Status, Body := some resp }

/-- The function `writeErrorResponse`. -/
def writeErrorResponse (W : World) (writer : ResponseWriter) (status : Nat)
    (req : RequestPayload) (msg : String) : ResponseWriter :=
  writeJSON writer
    { Status := status, Success := false, Timestamp := W.timestamp, Request := req,
      Command := "", Answer := Answer.null, Error := msg }

/-- The state a handler threads through its steps: the writer, the limiter (`none` for a nil
limiter) and the events so far. -/
structure HandlerState where
  writer : ResponseWriter
  limiter : Option Manager
  events : List Event

/-- The function `handleRateLimit`: whether the request is admitted, and the state after. -/
def handleRateLimit (L : GoLib) (W : World) (st : HandlerState) (req : Request)
    (trusted : List IPNet) : Bool × HandlerState :=
  match st.limiter with
  | none => (true, st)
  | some limiter =>
    let clientIP := req.RemoteAddr
    let clientIP :=
      if trusted.length > 0 then ClientIP L req trusted
      else
        match L.SplitHostPort req.RemoteAddr with
        | some (host, _) => host
        | none => clientIP
    let r := limiter.Allow L W.now clientIP
    let st := { st with limiter := some r.2, events := st.events ++ [Event.allow clientIP] }
    if !r.1 then
      let writer := st.writer.SetHeader "Retry-After" "1"
      let writer := writeErrorResponse W writer StatusTooManyRequests emptyRequestPayload
        "rate limit exceeded"
      (false, { st with writer := writer })
    else (true, st)

/-- The function `decodeRequestPayload`. -/
def decodeRequestPayload (L : GoLib) (W : World) (writer : ResponseWriter) (req : Request) :
    (RequestPayload × Bool) × ResponseWriter :=
  match L.DecodeJSON req.Body with
  | Except.error err =>
    ((emptyRequestPayload, false),
      writeErrorResponse W writer StatusBadRequest emptyRequestPayload err)
  | Except.ok payload => ((payload, true), writer)

/-- The function `validatePayload`. -/
def validatePayload (W : World) (writer : ResponseWriter) (payload : RequestPayload) :
    Bool × ResponseWriter :=
  let v := Validate payload
  if !v.1 then (false, writeErrorResponse W writer v.2.1 payload v.2.2)
  else (true, writer)

/-- The handler `makeQueryHandler` returns, run on one request from the state `st`. -/
def makeQueryHandler (L : GoLib) (W : World) (resolverRunner : Runner)
    (trusted : List IPNet) (st : HandlerState) (req : Request) : HandlerState :=
  let admitted := handleRateLimit L W st req trusted
  if !admitted.1 then admitted.2
  else
    let st := admitted.2
    let st := { st with
      events := st.events ++ [Event.logRequest req.Method req.RemoteAddr req.Path] }
    if req.Method ≠ "POST" then
      { st with writer := (writeErrorResponse W st.writer StatusMethodNotAllowed
          emptyRequestPayload "Method not allowed") }
    else
      let decoded := decodeRequestPayload L W st.writer req
      let payload := decoded.1.1
      let st := { st with writer := decoded.2 }
      if !decoded.1.2 then st
      else
        let validated := validatePayload W st.writer payload
        let st := { st with writer := validated.2 }
        if !validated.1 then st
        else
          let clientIP := ClientIP L req trusted
          let st := { st with events := st.events ++ [Event.logQuery payload clientIP] }
          let ran := Run L W.exec resolverRunner payload
          let out := ran.1
          let cmdDesc := ran.2.1
          let runErr := ran.2.2
          let st := { st with events := st.events ++ [Event.run payload] }
          let st :=
            if out.length = 0 then
              { st with events := (st.events ++
                  [Event.logEmpty payload (ClientIP L req trusted) runErr]) }
            else st
          let resp : ResponsePayload :=
            { Status := StatusOK, Success := runErr.isNone, Timestamp := W.timestamp,
              Request := payload, Command := cmdDesc, Answer := Answer.null, Error := "" }
          let resp :=
            match runErr with
            | some e => { resp with Status := StatusInternalServerError, Error := e }
            | none => resp
          let resp :=
            if payload.AsJSON ∧ out.length > 0 then
              (if L.ValidJSON out then { resp with Answer := Answer.parsed out }
               else { resp with Answer := Answer.text out })
            else { resp with Answer := Answer.text out }
          { st with writer := writeJSON st.writer resp }

/-- A handler state before the request: an untouched writer, no events. -/
def HandlerState.start (limiter : Option Manager) : HandlerState :=
  { writer := ResponseWriter.new, limiter := limiter, events := [] }

/-! ## A library to evaluate the definitions with

`goLib` gives the fields of `GoLib` values that can be computed, so that the definitions
above can be run on concrete requests. `SplitHostPort` and `Contains` follow the
functions of package `net` step by step. `ParseIP` reads dotted-decimal IPv4 text only and
`ToLowerRune` keeps every rune: the requests evaluated with `goLib` are ASCII text with
IPv4 addresses. The JSON decoder accepts no body. -/

/-- The index of the first `c` in `s` (`bytealg.IndexByteString`), `none` for `-1`. -/
def indexByte (c : Char) : List Char → Option Nat
  | [] => none
  | d :: ds => if d = c then some 0 else (indexByte c ds).map (· + 1)

/-- The index of the last `c` in `s` (`bytealg.LastIndexByteString`), `none` for `-1`. -/
def lastIndexByte (c : Char) : List Char → Option Nat
  | [] => none
  | d :: ds =>
    match lastIndexByte c ds with
    | some i => some (i + 1)
    | none => if d = c then some 0 else none

/-- The function `net.SplitHostPort`, `none` for each of its error returns. -/
def goSplitHostPort (hostport : String) : Option (String × String) :=
  let s := hostport.data
  match lastIndexByte ':' s with
  | none => none
  | some i =>
    if s.head? = some '[' then
      match indexByte ']' s with
      | none => none
      | some e =>
        if e + 1 = s.length then none
        else if e + 1 = i then
          if (indexByte '[' (s.drop 1)).isSome then none
          else if (indexByte ']' (s.drop (e + 1))).isSome then none
          else some (String.mk ((s.take e).drop 1), String.mk (s.drop (i + 1)))
        else none
    else
      let host := s.take i
      if (indexByte ':' host).isSome then none
      else if (indexByte '[' s).isSome then none
      else if (indexByte ']' s).isSome then none
      else some (String.mk host, String.mk (s.drop (i + 1)))

/-- The loop of `parseIPv4Fields` in `net/netip`, from position `i` on: `val` and `digLen`
are the value and number of digits of the octet being read, `fields` the octets read so
far, `prev` the character before the current one. -/
def parseIPv4Fields (i : Nat) (prev : Option Char) (val digLen : Nat) (fields : List Nat) :
    List Char → Option (List Nat)
  | [] => if fields.length < 3 then none else some (fields ++ [val])
  | c :: cs =>
    if '0'.toNat ≤ c.toNat ∧ c.toNat ≤ '9'.toNat then
      if digLen = 1 ∧ val = 0 then none
      else
        let val := val * 10 + (c.toNat - '0'.toNat)
        if val > 255 then none
        else parseIPv4Fields (i + 1) (some c) val (digLen + 1) fields cs
    else if c = '.' then
      if i = 0 ∨ cs = [] ∨ prev = some '.' then none
      else if fields.length = 3 then none
      else parseIPv4Fields (i + 1) (some c) 0 0 (fields ++ [val]) cs
    else none

/-- The function `net.ParseIP` on dotted-decimal IPv4 text: the 16-byte form of the address,
the empty list (nil) for any other text. -/
def goParseIP (s : String) : IP :=
  if s.data.contains '.' ∧ ¬ s.data.contains ':' then
    match parseIPv4Fields 0 none 0 0 [] s.data with
    | some [a, b, c, d] =>
      [0, 0, 0, 0, 0, 0, 0, 0, 0, 0, 0xff, 0xff,
        UInt8.ofNat a, UInt8.ofNat b, UInt8.ofNat c, UInt8.ofNat d]
    | _ => []
  else []

/-- The method `IP.To4`: the 4-byte form of an IPv4 address, nil for any other address. -/
def To4 (ip : IP) : IP :=
  if ip.length = 4 then ip
  else if ip.length = 16 ∧ (ip.take 10).all (· = 0) ∧ ip.get? 10 = some 0xff
      ∧ ip.get? 11 = some 0xff then ip.drop 12
  else []

/-- The function `networkNumberAndMask` of package `net`; `none` for `nil, nil`. -/
def networkNumberAndMask (n : IPNet) : Option (IP × List UInt8) :=
  let ip := if To4 n.IP = [] then n.IP else To4 n.IP
  if To4 n.IP = [] ∧ ip.length ≠ 16 then none
  else if n.Mask.length = 4 then
    (if ip.length ≠ 4 then none else some (ip, n.Mask))
  else if n.Mask.length = 16 then
    (if ip.length = 4 then some (ip, n.Mask.drop 12) else some (ip, n.Mask))
  else none

/-- The method `(*net.IPNet).Contains`. -/
def goContains (n : IPNet) (ip : IP) : Bool :=
  let ip := if To4 ip = [] then ip else To4 ip
  match networkNumberAndMask n with
  | none => ip.length = 0
  | some (nn, m) =>
    if ip.length ≠ nn.length then false
    else (List.zip (List.zip nn ip) m).all fun x => x.1.1 &&& x.2 = x.1.2 &&& x.2

/-- The library the definitions are evaluated with. -/
def goLib : GoLib :=
  { SplitHostPort := goSplitHostPort
    ParseIP := goParseIP
    Contains := goContains
    ToLowerRune := fun r => r
    DecodeJSON := fun _ => Except.error "EOF"
    ValidJSON := fun _ => false }

/-! ## Vocabulary of the statements -/

/-- A text a header may supply as the client address: it parses as an IP address and the
address lies in no trusted range. -/
def Acceptable (L : GoLib) (trusted : List IPNet) (s : String) : Prop :=
  L.ParseIP s ≠ [] ∧ ∀ n ∈ trusted, L.Contains n (L.ParseIP s) = false

instance (L : GoLib) (trusted : List IPNet) (s : String) : Decidable (Acceptable L trusted s) := by
  unfold Acceptable
  infer_instance

/-- The entries of a comma-separated header value, each with its surrounding white space
trimmed. -/
def headerEntries (value : String) : List String :=
  (Split value ',').map TrimSpace

/-- A request with the given connection address and the given values of the headers
`X-Forwarded-For` and `X-Real-IP`, no other header being set. -/
def exampleRequest (remoteAddr xff xRealIP : String) : Request :=
  { Method := "POST", RemoteAddr := remoteAddr, Path := "/query", Body := ""
    Header := fun k =>
      if k = "X-Forwarded-For" then xff else if k = "X-Real-IP" then xRealIP else "" }

/-- The bucket `Manager.Allow` works on for a key: the one the table holds, or a new one. -/
def Manager.bucket (m : Manager) (key : String) : Limiter :=
  (m.limiters key).getD (NewLimiter m.rps m.burst)

/-- A sequence of `Allow` calls on one bucket at the given times: the answers in order, and
the bucket after the last call. -/
def Limiter.allowAll (lim : Limiter) : List ℚ → List Bool × Limiter
  | [] => ([], lim)
  | now :: times =>
    let r := lim.Allow now
    let rest := r.2.allowAll times
    (r.1 :: rest.1, rest.2)

/-- The calls of a sequence of `Allow` calls whose remote has the given key. -/
def callsFor (L : GoLib) (key : String) (calls : List (ℚ × String)) : List (ℚ × String) :=
  calls.filter fun c => getIP L c.2 = key

/-- The transport flag the two builders add for a lowered transport: the `switch` of
`buildKdigArgs` and `buildKdigCommand`. -/
def transportFlag (lowered : String) : List String :=
  if lowered = "tcp" then ["+tcp"]
  else if lowered = "tls" then ["+tls"]
  else if lowered = "https" then ["+https"]
  else []

/-- The limiter admits the request: no limiter is configured, or its `Allow` answers true
for the client address of the request. -/
def Admitted (L : GoLib) (W : World) (limiter : Option Manager) (req : Request)
    (trusted : List IPNet) : Prop :=
  ∀ m, limiter = some m → (m.Allow L W.now (ClientIP L req trusted)).1 = true

/-- The handler answered with an error of the given status: the status was written, and
the body is a payload with this status and `success = false`. -/
def ErrorAnswer (w : ResponseWriter) (status : Nat) : Prop :=
  w.Status = some status ∧
    ∃ body, w.Body = some body ∧ body.Status = status ∧ body.Success = false

/-- The resolver was not called: no event of the handler is a call of `Run`. -/
def NoRun (events : List Event) : Prop :=
  ∀ p, Event.run p ∉ events

/-- A world to evaluate the handler in: the clock reads 0 and `kdig` prints nothing. -/
def exampleWorld : World :=
  { now := 0, timestamp := "1970-01-01T00:00:00Z", exec := fun _ => ExecResult.ok [] }

/-- The text is one of the three transport flags of `kdig`. -/
def IsTransportFlag (s : String) : Prop :=
  s = "+tcp" ∨ s = "+tls" ∨ s = "+https"

instance (s : String) : Decidable (IsTransportFlag s) := by
  unfold IsTransportFlag
  infer_instance

/-- A request payload with the given nameserver, name, type and transport, no flag set. -/
def examplePayload (nameserver name type transport : String) : RequestPayload :=
  { Nameserver := nameserver, Name := name, Type_ := type, Transport := transport,
    DNSSEC := false, Short := false, AsJSON := false }

/-- The network `10.0.0.0/8`, as `net.ParseCIDR` returns it. -/
def net10 : IPNet :=
  { IP := [10, 0, 0, 0], Mask := [255, 0, 0, 0] }

end Wdns

/-! # Theorems -/

namespace Wdns

/-! ## `Validate` -/

/-- C1: `Validate` returns `(true, 200, "")` exactly when the nameserver and the name are
non-empty, the type is `A` or `AAAA` and the transport is one of the empty text, `tcp`,
`tls`, `https`; in every other case it returns `false`, status 400 and a non-empty message;
and changing the flags `Short`, `DNSSEC`, `AsJSON` never changes the result. -/
theorem Validate_accepts_iff (req : RequestPayload) :
    (Validate req = (true, 200, "") ↔
      (req.Nameserver ≠ "" ∧ req.Name ≠ "" ∧ (req.Type_ = "A" ∨ req.Type_ = "AAAA") ∧
        (req.Transport = "" ∨ req.Transport = "tcp" ∨ req.Transport = "tls"
          ∨ req.Transport = "https"))) ∧
    (Validate req = (true, 200, "") ∨
      ((Validate req).1 = false ∧ (Validate req).2.1 = 400 ∧ (Validate req).2.2 ≠ "")) ∧
    (∀ s d j, Validate { req with Short := s, DNSSEC := d, AsJSON := j } = Validate req) := by
  refine ⟨?_, ?_, ?_⟩
  · unfold Validate
    split_ifs
    all_goals simp_all [StatusOK, StatusBadRequest]
    tauto
  · unfold Validate
    split_ifs <;> simp_all [StatusOK, StatusBadRequest]
  · intro s d j
    rfl

/-! ## `ClientIP` -/

/-- With a non-empty trusted list, `ipInNets` is false exactly when no net contains the
address. -/
theorem ipInNets_eq_false (L : GoLib) (trusted : List IPNet) (ip : IP) (hip : ip ≠ []) :
    ipInNets L ip trusted = false ↔ ∀ n ∈ trusted, L.Contains n ip = false := by
  simp [ipInNets, hip]

/-- The loop over the forwarded entries skips every entry that is not acceptable. -/
theorem firstUntrusted_skip (L : GoLib) (trusted : List IPNet) (pre rest : List String)
    (hpre : ∀ x ∈ pre, ¬ Acceptable L trusted (TrimSpace x)) :
    firstUntrusted L trusted (pre ++ rest) = firstUntrusted L trusted rest := by
  induction pre with
  | nil => rfl
  | cons p ps ih =>
    have hp := hpre p (List.mem_cons_self _ _)
    have hps : ∀ x ∈ ps, ¬ Acceptable L trusted (TrimSpace x) :=
      fun x hx => hpre x (List.mem_cons_of_mem _ hx)
    simp only [List.cons_append, firstUntrusted]
    by_cases h0 : L.ParseIP (TrimSpace p) = []
    · simp [h0, ih hps]
    · have hin : ipInNets L (L.ParseIP (TrimSpace p)) trusted = true := by
        by_contra hc
        have hc2 : ipInNets L (L.ParseIP (TrimSpace p)) trusted = false := by
          simpa using hc
        exact hp ⟨h0, (ipInNets_eq_false L trusted _ h0).1 hc2⟩
      simp [h0, hin, ih hps]

/-- The loop over the forwarded entries returns the first acceptable entry. -/
theorem firstUntrusted_hit (L : GoLib) (trusted : List IPNet) (p : String)
    (rest : List String) (hp : Acceptable L trusted (TrimSpace p)) :
    firstUntrusted L trusted (p :: rest) = some (TrimSpace p) := by
  have hin := (ipInNets_eq_false L trusted _ hp.1).2 hp.2
  simp [firstUntrusted, hp.1, hin]

/-- The loop over the forwarded entries returns nothing when no entry is acceptable. -/
theorem firstUntrusted_none (L : GoLib) (trusted : List IPNet) (parts : List String)
    (h : ∀ x ∈ parts, ¬ Acceptable L trusted (TrimSpace x)) :
    firstUntrusted L trusted parts = none := by
  have := firstUntrusted_skip L trusted parts [] h
  simpa [firstUntrusted] using this

/-- The text `strings.Split` returns for the empty text is one empty piece, and trimming
it leaves it empty. -/
theorem headerEntries_empty : headerEntries "" = [""] := by
  decide

/-- C3: with no trusted proxy (a nil or empty list) `ClientIP` returns the host of
`RemoteAddr`, or `RemoteAddr` itself when it does not split into host and port, and the
result does not depend on the headers: a request that differs only in its headers resolves
to the same address. With the library `goLib`, the connection address `10.0.0.1:12345`
resolves to `10.0.0.1` although `X-Forwarded-For` names `203.0.113.5`. -/
theorem ClientIP_no_trusted (L : GoLib) (req : Request) :
    (ClientIP L req [] =
      match L.SplitHostPort req.RemoteAddr with
      | some (host, _) => host
      | none => req.RemoteAddr) ∧
    (∀ header : String → String, ClientIP L { req with Header := header } [] = ClientIP L req []) ∧
    ClientIP goLib (exampleRequest "10.0.0.1:12345" "203.0.113.5, 10.0.0.1" "198.51.100.9") []
      = "10.0.0.1" := by
  refine ⟨?_, ?_, ?_⟩
  · simp [ClientIP, hostFromRemote]
  · intro header
    simp [ClientIP, hostFromRemote]
  · decide

/-- C4: with a non-empty trusted list, when the entries of `X-Forwarded-For` are
`pre ++ e :: post` with `e` acceptable (it parses as an IP address and lies in no trusted
range) and no entry of `pre` acceptable, `ClientIP` returns `e`: the left-most acceptable
entry, the entries before it being skipped. `hlib` is the fact that `net.ParseIP`
rejects the empty text. -/
theorem ClientIP_forwarded_for (L : GoLib) (req : Request) (trusted : List IPNet)
    (pre post : List String) (e : String)
    (hlib : L.ParseIP "" = [])
    (htrusted : trusted ≠ [])
    (hentries : headerEntries (req.Header "X-Forwarded-For") = pre ++ e :: post)
    (hpre : ∀ x ∈ pre, ¬ Acceptable L trusted x)
    (he : Acceptable L trusted e) :
    ClientIP L req trusted = e := by
  have hne : req.Header "X-Forwarded-For" ≠ "" := by
    intro h0
    rw [h0, headerEntries_empty] at hentries
    cases pre with
    | nil =>
      simp only [List.nil_append, List.cons.injEq] at hentries
      exact he.1 (hentries.1 ▸ hlib)
    | cons x xs =>
      simp only [List.cons_append, List.cons.injEq] at hentries
      have := congrArg List.length hentries.2
      simp at this
      omega
  have hlen : trusted.length ≠ 0 := by
    simpa [List.length_eq_zero] using htrusted
  obtain ⟨pre', p, post', hsplit, hpre', hp, -⟩ :
      ∃ pre' p post', Split (req.Header "X-Forwarded-For") ',' = pre' ++ p :: post' ∧
        pre'.map TrimSpace = pre ∧ TrimSpace p = e ∧ post'.map TrimSpace = post := by
    have h := hentries
    unfold headerEntries at h
    rw [List.map_eq_append_iff] at h
    obtain ⟨l₁, l₂, h12, h1, h2⟩ := h
    rw [List.map_eq_cons_iff] at h2
    obtain ⟨p, post', hl2, hp, hpost⟩ := h2
    exact ⟨l₁, p, post', by rw [h12, hl2], h1, hp, hpost⟩
  have hskip : ∀ x ∈ pre', ¬ Acceptable L trusted (TrimSpace x) := by
    intro x hx
    apply hpre
    rw [← hpre']
    exact List.mem_map_of_mem _ hx
  have hloop : firstUntrusted L trusted (Split (req.Header "X-Forwarded-For") ',') = some e := by
    rw [hsplit, firstUntrusted_skip L trusted pre' _ hskip,
      firstUntrusted_hit L trusted p post' (hp ▸ he), hp]
  simp [ClientIP, hlen, hne, hloop]

/-- C4, at the input of `TestClientIP_XForwardedFor`: the header `203.0.113.5, 10.0.0.1`
with the trusted range `10.0.0.0/8` resolves to `203.0.113.5`. -/
theorem ClientIP_forwarded_for_witness :
    ClientIP goLib (exampleRequest "10.0.0.1:12345" "203.0.113.5, 10.0.0.1" "") [net10]
      = "203.0.113.5" :=
  ClientIP_forwarded_for goLib (exampleRequest "10.0.0.1:12345" "203.0.113.5, 10.0.0.1" "")
    [net10] [] ["10.0.0.1"] "203.0.113.5" (by decide) (by decide) (by decide)
    (by simp) (by decide)

/-- The loop over the forwarded entries is a search for the first acceptable entry. -/
theorem firstUntrusted_eq_find (L : GoLib) (trusted : List IPNet) (parts : List String) :
    firstUntrusted L trusted parts =
      (parts.map TrimSpace).find? fun e => decide (Acceptable L trusted e) := by
  induction parts with
  | nil => rfl
  | cons p ps ih =>
    by_cases hp : Acceptable L trusted (TrimSpace p)
    · rw [firstUntrusted_hit L trusted p ps hp]
      simp [List.find?, hp]
    · have h := firstUntrusted_skip L trusted [p] ps (by simpa using hp)
      simp only [List.singleton_append] at h
      rw [h, ih]
      simp [List.find?, hp]

/-- C5: with a non-empty trusted list, when `X-Forwarded-For` is absent (empty) or has no
acceptable entry, `ClientIP` returns the trimmed `X-Real-IP` value when that value parses
as an IP address and lies in no trusted range, and the host of `RemoteAddr` (or
`RemoteAddr` itself when it does not split) when it does not; so, the connection host and
the trimmed `X-Real-IP` value being different texts, the result is the `X-Real-IP` value
if and only if that value is acceptable. In general the result is the
first acceptable entry of `X-Forwarded-For`, else the acceptable `X-Real-IP`, else the
connection address, in this order. `hlib` is the fact that `net.ParseIP` rejects the
empty text. -/
theorem ClientIP_real_ip (L : GoLib) (req : Request) (trusted : List IPNet)
    (hlib : L.ParseIP "" = [])
    (htrusted : trusted ≠ []) :
    ((req.Header "X-Forwarded-For" = "" ∨
        ∀ e ∈ headerEntries (req.Header "X-Forwarded-For"), ¬ Acceptable L trusted e) →
      ClientIP L req trusted =
        if Acceptable L trusted (TrimSpace (req.Header "X-Real-IP"))
        then TrimSpace (req.Header "X-Real-IP")
        else
          match L.SplitHostPort req.RemoteAddr with
          | some (host, _) => host
          | none => req.RemoteAddr) ∧
    ((req.Header "X-Forwarded-For" = "" ∨
        ∀ e ∈ headerEntries (req.Header "X-Forwarded-For"), ¬ Acceptable L trusted e) →
      hostFromRemote L req ≠ TrimSpace (req.Header "X-Real-IP") →
      (ClientIP L req trusted = TrimSpace (req.Header "X-Real-IP") ↔
        Acceptable L trusted (TrimSpace (req.Header "X-Real-IP")))) ∧
    ClientIP L req trusted =
      match (headerEntries (req.Header "X-Forwarded-For")).find?
          fun e => decide (Acceptable L trusted e) with
      | some e => e
      | none =>
        if Acceptable L trusted (TrimSpace (req.Header "X-Real-IP"))
        then TrimSpace (req.Header "X-Real-IP")
        else
          match L.SplitHostPort req.RemoteAddr with
          | some (host, _) => host
          | none => req.RemoteAddr := by
  have hlen : trusted.length ≠ 0 := by
    simpa [List.length_eq_zero] using htrusted
  have hempty : ¬ Acceptable L trusted "" := fun h => h.1 hlib
  have hreal : (if TrimSpace (req.Header "X-Real-IP") ≠ "" ∧
        L.ParseIP (TrimSpace (req.Header "X-Real-IP")) ≠ [] ∧
        (!ipInNets L (L.ParseIP (TrimSpace (req.Header "X-Real-IP"))) trusted) = true
      then TrimSpace (req.Header "X-Real-IP") else hostFromRemote L req) =
      if Acceptable L trusted (TrimSpace (req.Header "X-Real-IP"))
      then TrimSpace (req.Header "X-Real-IP")
      else
        match L.SplitHostPort req.RemoteAddr with
        | some (host, _) => host
        | none => req.RemoteAddr := by
    by_cases hacc : Acceptable L trusted (TrimSpace (req.Header "X-Real-IP"))
    · have hne : TrimSpace (req.Header "X-Real-IP") ≠ "" := by
        intro h0
        rw [h0] at hacc
        exact hempty hacc
      have hin := (ipInNets_eq_false L trusted _ hacc.1).2 hacc.2
      simp [hacc, hne, hacc.1, hin]
    · have hcond : ¬ (TrimSpace (req.Header "X-Real-IP") ≠ "" ∧
          L.ParseIP (TrimSpace (req.Header "X-Real-IP")) ≠ [] ∧
          (!ipInNets L (L.ParseIP (TrimSpace (req.Header "X-Real-IP"))) trusted) = true) := by
        rintro ⟨-, h1, h2⟩
        apply hacc
        refine ⟨h1, (ipInNets_eq_false L trusted _ h1).1 ?_⟩
        simpa using h2
      rw [if_neg hcond, if_neg hacc]
      rfl
  have hgeneral : ClientIP L req trusted =
      match (headerEntries (req.Header "X-Forwarded-For")).find?
          fun e => decide (Acceptable L trusted e) with
      | some e => e
      | none =>
        if Acceptable L trusted (TrimSpace (req.Header "X-Real-IP"))
        then TrimSpace (req.Header "X-Real-IP")
        else
          match L.SplitHostPort req.RemoteAddr with
          | some (host, _) => host
          | none => req.RemoteAddr := by
    rw [← hreal]
    by_cases h0 : req.Header "X-Forwarded-For" = ""
    · have hfind : (headerEntries (req.Header "X-Forwarded-For")).find?
          (fun e => decide (Acceptable L trusted e)) = none := by
        rw [h0, headerEntries_empty]
        simp [List.find?, hempty]
      rw [hfind]
      simp [ClientIP, hlen, h0]
    · unfold headerEntries
      rw [← firstUntrusted_eq_find]
      simp only [ClientIP, hlen, h0, if_false, ne_eq, not_false_eq_true, if_true]
  have hfallback : (req.Header "X-Forwarded-For" = "" ∨
        ∀ e ∈ headerEntries (req.Header "X-Forwarded-For"), ¬ Acceptable L trusted e) →
      ClientIP L req trusted =
        if Acceptable L trusted (TrimSpace (req.Header "X-Real-IP"))
        then TrimSpace (req.Header "X-Real-IP")
        else
          match L.SplitHostPort req.RemoteAddr with
          | some (host, _) => host
          | none => req.RemoteAddr := by
    intro hxff
    have hfind : (headerEntries (req.Header "X-Forwarded-For")).find?
        (fun e => decide (Acceptable L trusted e)) = none := by
      rcases hxff with h0 | hall
      · rw [h0, headerEntries_empty]
        simp [List.find?, hempty]
      · rw [List.find?_eq_none]
        intro x hx
        simpa using hall x hx
    rw [hgeneral, hfind]
  refine ⟨hfallback, ?_, hgeneral⟩
  intro hxff hhost
  rw [hfallback hxff]
  by_cases hacc : Acceptable L trusted (TrimSpace (req.Header "X-Real-IP"))
  · simp [hacc]
  · rw [if_neg hacc]
    constructor
    · intro h
      exact absurd h hhost
    · intro h
      exact absurd h hacc

/-- C5, at a concrete request: the only forwarded entry `10.0.0.1` is trusted, so the
untrusted `X-Real-IP` value `198.51.100.9` is the client address; and were it trusted too,
the connection address would be. -/
theorem ClientIP_real_ip_witness :
    ClientIP goLib (exampleRequest "10.0.0.1:12345" "10.0.0.1" " 198.51.100.9 ") [net10]
      = "198.51.100.9" ∧
    ClientIP goLib (exampleRequest "10.0.0.1:12345" "10.0.0.1" "10.9.9.9") [net10]
      = "10.0.0.1" := by
  constructor
  · have h := (ClientIP_real_ip goLib
      (exampleRequest "10.0.0.1:12345" "10.0.0.1" " 198.51.100.9 ") [net10]
      (by decide) (by decide)).1 (Or.inr (by decide))
    rw [h]
    decide
  · have h := (ClientIP_real_ip goLib
      (exampleRequest "10.0.0.1:12345" "10.0.0.1" "10.9.9.9") [net10]
      (by decide) (by decide)).1 (Or.inr (by decide))
    rw [h]
    decide

/-! ## The rate limiter -/

/-- What `Manager.Allow` answers is what the bucket of the key answers. -/
theorem Manager.Allow_fst (L : GoLib) (m : Manager) (now : ℚ) (remote : String) :
    (m.Allow L now remote).1 = ((m.bucket (getIP L remote)).Allow now).1 := by
  unfold Manager.Allow Manager.bucket
  cases h : m.limiters (getIP L remote) <;> simp [h]

/-- After `Manager.Allow` the table holds, for the key, the bucket after its `Allow`. -/
theorem Manager.Allow_limiters_self (L : GoLib) (m : Manager) (now : ℚ) (remote : String) :
    (m.Allow L now remote).2.limiters (getIP L remote) =
      some ((m.bucket (getIP L remote)).Allow now).2 := by
  unfold Manager.Allow Manager.bucket
  cases h : m.limiters (getIP L remote) <;> simp [h]

/-- A call of `Manager.Allow` leaves the entry of every other key as it was. -/
theorem Manager.Allow_limiters_other (L : GoLib) (m : Manager) (now : ℚ) (remote key : String)
    (hkey : key ≠ getIP L remote) :
    (m.Allow L now remote).2.limiters key = m.limiters key := by
  unfold Manager.Allow
  cases h : m.limiters (getIP L remote) <;> simp [h, Function.update, hkey]

/-- A call of `Manager.Allow` keeps the settings of the manager. -/
theorem Manager.Allow_settings (L : GoLib) (m : Manager) (now : ℚ) (remote : String) :
    (m.Allow L now remote).2.rps = m.rps ∧ (m.Allow L now remote).2.burst = m.burst := by
  unfold Manager.Allow
  exact ⟨rfl, rfl⟩

/-- Calls of `Manager.Allow` for one remote are calls of `Allow` on the bucket of its key. -/
theorem Manager.allowAll_same_remote (L : GoLib) (remote : String) (times : List ℚ) :
    ∀ m : Manager, (m.allowAll L (times.map fun t => (t, remote))).1 =
      ((m.bucket (getIP L remote)).allowAll times).1 := by
  induction times with
  | nil => intro m; rfl
  | cons t ts ih =>
    intro m
    have hself := Manager.Allow_limiters_self L m t remote
    have hset := Manager.Allow_settings L m t remote
    have hb : (m.Allow L t remote).2.bucket (getIP L remote) =
        ((m.bucket (getIP L remote)).Allow t).2 := by
      simp [Manager.bucket, hself]
    simp only [List.map_cons, Manager.allowAll, Limiter.allowAll]
    rw [ih (m.Allow L t remote).2, hb, Manager.Allow_fst]

/-- The answers to a sequence of calls on a bucket, split at any point. -/
theorem Limiter.allowAll_append (xs ys : List ℚ) :
    ∀ lim : Limiter, (lim.allowAll (xs ++ ys)).1 =
        (lim.allowAll xs).1 ++ ((lim.allowAll xs).2.allowAll ys).1 := by
  induction xs with
  | nil => intro lim; rfl
  | cons x xs ih =>
    intro lim
    simp only [List.cons_append, Limiter.allowAll, List.cons.injEq, true_and]
    exact ih _

/-- A bucket that holds `j` tokens at time `t` admits `j` calls made at `t`, and is then
empty, last refilled at `t`. -/
theorem Limiter.allowAll_drain (r t : ℚ) (B : Int) (j : Nat) :
    ∀ lim : Limiter, lim.limit = r → lim.burst = B → lim.advance t = (j : ℚ) → 1 ≤ j →
      (lim.allowAll (List.replicate j t)).1 = List.replicate j true ∧
      (lim.allowAll (List.replicate j t)).2 = { limit := r, burst := B, tokens := 0, last := t } := by
  induction j with
  | zero => intro lim _ _ _ h; omega
  | succ k ih =>
    intro lim hr hB hadv _
    have hle : ((k : ℚ) + 1) ≤ (B : ℚ) := by
      have h1 : lim.advance t ≤ (lim.burst : ℚ) := min_le_left _ _
      rw [hadv, hB] at h1
      exact_mod_cast h1
    have hB1 : (1 : Int) ≤ B := by
      have h0 : (0 : ℚ) ≤ (k : ℚ) := Nat.cast_nonneg k
      have : (1 : ℚ) ≤ (B : ℚ) := by linarith
      exact_mod_cast this
    have hstep : lim.Allow t =
        (true, { limit := r, burst := B, tokens := (k : ℚ), last := t }) := by
      have hc : (1 : Int) ≤ lim.burst ∧ ((1 : Int) : ℚ) ≤ lim.advance t := by
        refine ⟨hB ▸ hB1, ?_⟩
        rw [hadv]
        push_cast
        have h0 : (0 : ℚ) ≤ (k : ℚ) := Nat.cast_nonneg k
        linarith
      simp only [Limiter.Allow, Limiter.AllowN, hc, and_self, if_true, hadv]
      rw [← hr, ← hB]
      push_cast
      simp
    simp only [List.replicate_succ, Limiter.allowAll, hstep]
    cases k with
    | zero => simp [Limiter.allowAll]
    | succ i =>
      have hadv2 : Limiter.advance
          { limit := r, burst := B, tokens := ((i + 1 : Nat) : ℚ), last := t } t =
          ((i + 1 : Nat) : ℚ) := by
        simp only [Limiter.advance, sub_self, max_self, zero_mul, add_zero]
        apply min_eq_right
        push_cast at hle ⊢
        linarith
      have h := ih { limit := r, burst := B, tokens := ((i + 1 : Nat) : ℚ), last := t }
        rfl rfl hadv2 (by omega)
      rw [h.1, h.2]
      simp

/-- C6: for a manager with refill rate `r > 0` and burst `B ≥ 1` and a remote whose key
has no bucket yet, `B + 1` calls of `Allow` made at one instant `t` answer true `B` times
and then false; after one refill period, at `t + 1 / r`, the next call answers true and
the call right after it answers false. -/
theorem Manager.burst_then_refill (L : GoLib) (m : Manager) (remote : String) (t : ℚ)
    (hr : 0 < m.rps) (hB : 1 ≤ m.burst) (hnew : m.limiters (getIP L remote) = none) :
    (m.allowAll L (List.replicate (m.burst.toNat + 1) (t, remote) ++
        [(t + 1 / m.rps, remote), (t + 1 / m.rps, remote)])).1 =
      List.replicate m.burst.toNat true ++ [false, true, false] := by
  have hcalls : List.replicate (m.burst.toNat + 1) (t, remote) ++
      [(t + 1 / m.rps, remote), (t + 1 / m.rps, remote)] =
      (List.replicate m.burst.toNat t ++ [t, t + 1 / m.rps, t + 1 / m.rps]).map
        fun x => (x, remote) := by
    simp [List.replicate_succ']
  have hbucket : m.bucket (getIP L remote) = NewLimiter m.rps m.burst := by
    simp [Manager.bucket, hnew]
  have hcast : ((m.burst.toNat : Nat) : ℚ) = (m.burst : ℚ) := by
    have h : ((m.burst.toNat : Nat) : Int) = m.burst := Int.toNat_of_nonneg (by omega)
    exact_mod_cast congrArg (fun z : Int => (z : ℚ)) h
  have hB0 : (1 : ℚ) ≤ (m.burst : ℚ) := by exact_mod_cast hB
  have hadv : (NewLimiter m.rps m.burst).advance t = ((m.burst.toNat : Nat) : ℚ) := by
    rw [hcast]
    simp only [NewLimiter, Limiter.advance, sub_zero]
    apply min_eq_left
    have : 0 ≤ max 0 t * m.rps := mul_nonneg (le_max_left _ _) hr.le
    linarith
  have hdrain := Limiter.allowAll_drain m.rps t m.burst m.burst.toNat
    (NewLimiter m.rps m.burst) rfl rfl hadv (by omega)
  have hne : m.rps ≠ 0 := hr.ne'
  have hpos : (0 : ℚ) ≤ m.rps⁻¹ := inv_nonneg.mpr hr.le
  have hB2 : ¬ ((m.burst : ℚ) ≤ 0) := by linarith
  have hempty : ∀ u : ℚ, Limiter.Allow
      { limit := m.rps, burst := m.burst, tokens := 0, last := u } u =
      (false, { limit := m.rps, burst := m.burst, tokens := 0, last := u }) := by
    intro u
    have hadv0 : Limiter.advance
        { limit := m.rps, burst := m.burst, tokens := 0, last := u } u = 0 := by
      simp only [Limiter.advance, sub_self, max_self, zero_mul, add_zero]
      apply min_eq_right
      linarith
    have hc : ¬ ((1 : Int) ≤ m.burst ∧ ((1 : Int) : ℚ) ≤ 0) := by
      rintro ⟨-, h⟩
      norm_num at h
    simp only [Limiter.Allow, Limiter.AllowN, hadv0, hc, if_false]
  have hrefill : Limiter.Allow
      { limit := m.rps, burst := m.burst, tokens := 0, last := t } (t + 1 / m.rps) =
      (true, { limit := m.rps, burst := m.burst, tokens := 0, last := t + 1 / m.rps }) := by
    have hadv1 : Limiter.advance
        { limit := m.rps, burst := m.burst, tokens := 0, last := t } (t + 1 / m.rps) = 1 := by
      have hmax : max 0 (t + 1 / m.rps - t) = 1 / m.rps := by
        rw [add_sub_cancel_left]
        apply max_eq_right
        rw [one_div]
        exact hpos
      show min (m.burst : ℚ) (0 + max 0 (t + 1 / m.rps - t) * m.rps) = 1
      rw [hmax, zero_add, one_div, inv_mul_cancel₀ hne]
      exact min_eq_right hB0
    have hc : (1 : Int) ≤ m.burst ∧ ((1 : Int) : ℚ) ≤ 1 := ⟨hB, by norm_num⟩
    simp only [Limiter.Allow, Limiter.AllowN, hadv1, hc, and_self, if_true]
    norm_num
  have htail : (Limiter.allowAll
      { limit := m.rps, burst := m.burst, tokens := 0, last := t }
      [t, t + 1 / m.rps, t + 1 / m.rps]).1 = [false, true, false] := by
    simp only [Limiter.allowAll, hempty, hrefill]
  rw [hcalls, Manager.allowAll_same_remote, hbucket, Limiter.allowAll_append, hdrain.1,
    hdrain.2, htail]

/-- C6, at the settings of `TestAllow`: rate 10 per second and burst 1. The first call is
admitted, the second at the same instant is not, and a tenth of a second later one more
call is admitted and the next is not. -/
theorem Manager.burst_then_refill_witness :
    ((NewManager 10 1).allowAll goLib
      (List.replicate ((NewManager 10 1).burst.toNat + 1) (0, "127.0.0.1:12345") ++
        [(0 + 1 / (NewManager 10 1).rps, "127.0.0.1:12345"),
          (0 + 1 / (NewManager 10 1).rps, "127.0.0.1:12345")])).1 =
      List.replicate (NewManager 10 1).burst.toNat true ++ [false, true, false] :=
  Manager.burst_then_refill goLib (NewManager 10 1) "127.0.0.1:12345" 0
    (by norm_num [NewManager]) (by decide) rfl

/-- Two managers with the same settings that hold the same bucket for a key still do so
after the one has served a sequence of calls and the other the calls of that sequence for
the key. -/
theorem Manager.allowAll_agree (L : GoLib) (key : String) (calls : List (ℚ × String)) :
    ∀ m₁ m₂ : Manager, m₁.limiters key = m₂.limiters key → m₁.rps = m₂.rps →
      m₁.burst = m₂.burst →
      (m₁.allowAll L calls).2.limiters key = (m₂.allowAll L (callsFor L key calls)).2.limiters key ∧
      (m₁.allowAll L calls).2.rps = (m₂.allowAll L (callsFor L key calls)).2.rps ∧
      (m₁.allowAll L calls).2.burst = (m₂.allowAll L (callsFor L key calls)).2.burst := by
  induction calls with
  | nil => intro m₁ m₂ h1 h2 h3; exact ⟨h1, h2, h3⟩
  | cons c cs ih =>
    intro m₁ m₂ h1 h2 h3
    obtain ⟨now, remote⟩ := c
    have hs₁ := Manager.Allow_settings L m₁ now remote
    by_cases hk : getIP L remote = key
    · have hs₂ := Manager.Allow_settings L m₂ now remote
      have hb : m₁.bucket (getIP L remote) = m₂.bucket (getIP L remote) := by
        simp [Manager.bucket, hk, h1, h2, h3]
      have hl : (m₁.Allow L now remote).2.limiters key = (m₂.Allow L now remote).2.limiters key := by
        rw [← hk, Manager.Allow_limiters_self, Manager.Allow_limiters_self, hb]
      have hfilter : callsFor L key ((now, remote) :: cs) = (now, remote) :: callsFor L key cs := by
        simp [callsFor, hk]
      rw [hfilter]
      simp only [Manager.allowAll]
      exact ih _ _ hl (by rw [hs₁.1, hs₂.1, h2]) (by rw [hs₁.2, hs₂.2, h3])
    · have hl : (m₁.Allow L now remote).2.limiters key = m₂.limiters key := by
        rw [Manager.Allow_limiters_other L m₁ now remote key (fun h => hk h.symm), h1]
      have hfilter : callsFor L key ((now, remote) :: cs) = callsFor L key cs := by
        simp [callsFor, hk]
      rw [hfilter]
      simp only [Manager.allowAll]
      exact ih _ _ hl (by rw [hs₁.1, h2]) (by rw [hs₁.2, h3])

/-- C7: buckets are per key, lazy and independent. A call `Allow(remote)` works on the key
`getIP(remote)`: when the table has no bucket for the key it stores a new one, created with
the full burst and the configured rate, and answers what that bucket answers; when the table
has one it answers what that bucket answers and stores it back; the entry of every other
key and the settings are unchanged. So the answer for a key is the same after any two
histories of calls that contain the same calls for that key. -/
theorem Manager.Allow_per_key (L : GoLib) (m : Manager) (now : ℚ) (remote : String) :
    (m.limiters (getIP L remote) = none →
      (m.Allow L now remote).1 = ((NewLimiter m.rps m.burst).Allow now).1 ∧
      (m.Allow L now remote).2.limiters (getIP L remote) =
        some ((NewLimiter m.rps m.burst).Allow now).2) ∧
    ((NewLimiter m.rps m.burst).tokens = m.burst ∧ (NewLimiter m.rps m.burst).burst = m.burst ∧
      (NewLimiter m.rps m.burst).limit = m.rps) ∧
    (∀ limiter, m.limiters (getIP L remote) = some limiter →
      (m.Allow L now remote).1 = (limiter.Allow now).1 ∧
      (m.Allow L now remote).2.limiters (getIP L remote) = some (limiter.Allow now).2) ∧
    (∀ key, key ≠ getIP L remote → (m.Allow L now remote).2.limiters key = m.limiters key) ∧
    ((m.Allow L now remote).2.rps = m.rps ∧ (m.Allow L now remote).2.burst = m.burst) ∧
    (∀ calls₁ calls₂ : List (ℚ × String),
      callsFor L (getIP L remote) calls₁ = callsFor L (getIP L remote) calls₂ →
      ((m.allowAll L calls₁).2.Allow L now remote).1 =
        ((m.allowAll L calls₂).2.Allow L now remote).1) := by
  refine ⟨?_, ⟨rfl, rfl, rfl⟩, ?_, ?_, Manager.Allow_settings L m now remote, ?_⟩
  · intro h
    rw [Manager.Allow_fst, Manager.Allow_limiters_self]
    simp [Manager.bucket, h]
  · intro limiter h
    rw [Manager.Allow_fst, Manager.Allow_limiters_self]
    simp [Manager.bucket, h]
  · intro key hkey
    exact Manager.Allow_limiters_other L m now remote key hkey
  · intro calls₁ calls₂ hcalls
    have h₁ := Manager.allowAll_agree L (getIP L remote) calls₁ m m rfl rfl rfl
    have h₂ := Manager.allowAll_agree L (getIP L remote) calls₂ m m rfl rfl rfl
    rw [hcalls] at h₁
    have hb : (m.allowAll L calls₁).2.bucket (getIP L remote) =
        (m.allowAll L calls₂).2.bucket (getIP L remote) := by
      simp only [Manager.bucket]
      rw [h₁.1, h₁.2.1, h₁.2.2, h₂.1, h₂.2.1, h₂.2.2]
    rw [Manager.Allow_fst, Manager.Allow_fst, hb]

/-- C8: one sweep of `Cleanup` removes from the table exactly the buckets that, at the
moment they are inspected, permit `m.burst` tokens at once, and keeps every other bucket
as it was, none of its tokens consumed; the table gets no new entry and the settings stay.
A firing of the ticker followed by `stop` is one sweep. -/
theorem Manager.sweep_removes_idle (m : Manager) (nowAt : String → ℚ) (ip : String) :
    ((m.sweep nowAt).limiters ip = none ↔
      (m.limiters ip = none ∨
        ∃ limiter, m.limiters ip = some limiter ∧
          (limiter.AllowN (nowAt ip) m.burst).1 = true)) ∧
    (∀ limiter, m.limiters ip = some limiter →
      (limiter.AllowN (nowAt ip) m.burst).1 = false →
      (m.sweep nowAt).limiters ip = some limiter) ∧
    (∀ (limiter : Limiter) (n : Int), (limiter.AllowN (nowAt ip) n).1 = true ↔
      (n ≤ limiter.burst ∧ (n : ℚ) ≤ limiter.advance (nowAt ip))) ∧
    ((m.sweep nowAt).rps = m.rps ∧ (m.sweep nowAt).burst = m.burst) ∧
    (∀ events, m.Cleanup (some nowAt :: none :: events) = m.sweep nowAt) := by
  have hkeep : ∀ (limiter : Limiter) (now : ℚ) (n : Int),
      (limiter.AllowN now n).1 = false → (limiter.AllowN now n).2 = limiter := by
    intro limiter now n
    simp only [Limiter.AllowN]
    split_ifs <;> simp
  refine ⟨?_, ?_, ?_, ⟨rfl, rfl⟩, ?_⟩
  · cases h : m.limiters ip with
    | none => simp [Manager.sweep, h]
    | some limiter =>
      cases hr : (limiter.AllowN (nowAt ip) m.burst).1 <;> simp [Manager.sweep, h, hr]
  · intro limiter h hr
    simp [Manager.sweep, h, hr, hkeep limiter (nowAt ip) m.burst hr]
  · intro limiter n
    simp only [Limiter.AllowN]
    split_ifs with hc
    · simpa using hc
    · simpa using hc
  · intro events
    rfl

/-! ## The command builders -/

/-- C9: `buildKdigArgs` returns the list `["@" + Nameserver, Name, Type]`, then the transport
flag, then `+dnssec` and `+do` when `DNSSEC` is set, then `+json` when `AsJSON` is set, then
`+short` when `Short` is set. The transport flag is `+tcp` for `tcp`, `+tls` for `tls`,
`+https` for `https` and nothing for the empty transport; the nameserver is the text after
the `@` of the first argument, whatever it contains. -/
theorem buildKdigArgs_layout (L : GoLib) (req : RequestPayload) :
    buildKdigArgs L req =
      ["@" ++ req.Nameserver, req.Name, req.Type_] ++
        transportFlag (ToLower L req.Transport) ++
        (if req.DNSSEC then ["+dnssec", "+do"] else []) ++
        (if req.AsJSON then ["+json"] else []) ++
        (if req.Short then ["+short"] else []) ∧
    transportFlag (ToLower L "tcp") = ["+tcp"] ∧
    transportFlag (ToLower L "tls") = ["+tls"] ∧
    transportFlag (ToLower L "https") = ["+https"] ∧
    transportFlag (ToLower L "") = [] := by
  refine ⟨?_, rfl, rfl, rfl, rfl⟩
  simp only [buildKdigArgs, transportFlag]
  split_ifs <;> simp

/-- C10: the diagnostic string is the tool name followed by the argument vector joined
with single spaces, `buildKdigCommand(req) = "kdig " + strings.Join(buildKdigArgs(req), " ")`;
so the string lists the flags of the vector in the same order, and when `AsJSON` is set
`+json` is an argument and occurs in the string. -/
theorem buildKdigCommand_eq_join (L : GoLib) (req : RequestPayload) :
    buildKdigCommand L req = "kdig " ++ Join (buildKdigArgs L req) " " ∧
    (req.AsJSON = true →
      "+json" ∈ buildKdigArgs L req ∧
      ∃ before after : String, buildKdigCommand L req = before ++ "+json" ++ after) := by
  have hjoin : buildKdigCommand L req = "kdig " ++ Join (buildKdigArgs L req) " " := by
    simp only [buildKdigCommand, buildKdigArgs]
    split_ifs <;> apply String.ext <;> simp [Join, String.data_append]
  refine ⟨hjoin, ?_⟩
  intro hjson
  refine ⟨?_, ?_⟩
  · simp only [buildKdigArgs]
    split_ifs <;> simp_all
  · have key : ∀ pre tail : String,
        pre ++ " +json" ++ tail = (pre ++ " ") ++ "+json" ++ tail := by
      intro pre tail
      apply String.ext
      simp [String.data_append]
    simp only [buildKdigCommand, hjson, if_true]
    by_cases hs : req.Short = true
    · simp only [hs, if_true]
      exact ⟨_, _, key _ " +short"⟩
    · simp only [hs]
      exact ⟨_, "", by rw [← key, String.append_empty]; rfl⟩

/-! ## The `/query` handler -/

/-- The key `handleRateLimit` passes to the limiter is the address `ClientIP` returns. -/
theorem rateLimitKey_eq_ClientIP (L : GoLib) (req : Request) (trusted : List IPNet) :
    (if trusted.length > 0 then ClientIP L req trusted
      else
        match L.SplitHostPort req.RemoteAddr with
        | some (host, _) => host
        | none => req.RemoteAddr) = ClientIP L req trusted := by
  by_cases h : trusted.length > 0
  · simp [h]
  · have h0 : trusted.length = 0 := by omega
    simp [h0, ClientIP, hostFromRemote]

/-- The function `handleRateLimit` with no limiter: the request is admitted and nothing
happens. -/
theorem handleRateLimit_none (L : GoLib) (W : World) (st : HandlerState) (req : Request)
    (trusted : List IPNet) (h : st.limiter = none) :
    handleRateLimit L W st req trusted = (true, st) := by
  simp [handleRateLimit, h]

/-- The function `handleRateLimit` with a limiter: it asks the limiter for the client
address, and on a refusal sets `Retry-After` and writes the 429 response. -/
theorem handleRateLimit_some (L : GoLib) (W : World) (st : HandlerState) (req : Request)
    (trusted : List IPNet) (m : Manager) (h : st.limiter = some m) :
    handleRateLimit L W st req trusted =
      if (m.Allow L W.now (ClientIP L req trusted)).1 = true then
        (true, { st with
          limiter := some (m.Allow L W.now (ClientIP L req trusted)).2
          events := st.events ++ [Event.allow (ClientIP L req trusted)] })
      else
        (false, { st with
          limiter := some (m.Allow L W.now (ClientIP L req trusted)).2
          events := st.events ++ [Event.allow (ClientIP L req trusted)]
          writer := writeErrorResponse W (st.writer.SetHeader "Retry-After" "1")
            StatusTooManyRequests emptyRequestPayload "rate limit exceeded" }) := by
  simp only [handleRateLimit, h, rateLimitKey_eq_ClientIP]
  cases (m.Allow L W.now (ClientIP L req trusted)).1 <;> simp

/-- An error response written by `writeErrorResponse` is an error answer of its status, and
keeps the headers set before, `Content-Type` apart. -/
theorem writeErrorResponse_answer (W : World) (w : ResponseWriter) (status : Nat)
    (req : RequestPayload) (msg : String) :
    ErrorAnswer (writeErrorResponse W w status req msg) status ∧
    (writeErrorResponse W w status req msg).GetHeader "Retry-After" = w.GetHeader "Retry-After" := by
  refine ⟨⟨rfl, _, rfl, rfl, rfl⟩, ?_⟩
  simp only [writeErrorResponse, writeJSON, ResponseWriter.SetHeader, ResponseWriter.GetHeader]
  have hne : ("Content-Type" = "Retry-After") = False := by decide
  have hfind : ∀ l : List (String × String),
      List.find? (fun kv => decide (kv.1 = "Retry-After"))
        (List.filter (fun kv => decide (kv.1 ≠ "Content-Type")) l) =
      List.find? (fun kv => decide (kv.1 = "Retry-After")) l := by
    intro l
    rw [List.find?_filter]
    congr 1
    funext kv
    by_cases h2 : kv.1 = "Retry-After"
    · have h1 : kv.1 ≠ "Content-Type" := by
        rw [h2]
        decide
      simp [h1, h2]
    · simp [h2]
  rw [List.find?_cons]
  simp only [hne, decide_False, hfind]

/-- A refused request: the handler stops after `handleRateLimit`. -/
theorem makeQueryHandler_refused (L : GoLib) (W : World) (runner : Runner)
    (trusted : List IPNet) (st st' : HandlerState) (req : Request)
    (hrl : handleRateLimit L W st req trusted = (false, st')) :
    makeQueryHandler L W runner trusted st req = st' := by
  simp [makeQueryHandler, hrl]

/-- An admitted request with a method other than POST: the handler logs it and writes the
405 response. -/
theorem makeQueryHandler_method (L : GoLib) (W : World) (runner : Runner)
    (trusted : List IPNet) (st st' : HandlerState) (req : Request)
    (hrl : handleRateLimit L W st req trusted = (true, st'))
    (hmethod : req.Method ≠ "POST") :
    makeQueryHandler L W runner trusted st req =
      { st' with
        events := st'.events ++ [Event.logRequest req.Method req.RemoteAddr req.Path]
        writer := writeErrorResponse W st'.writer StatusMethodNotAllowed emptyRequestPayload
          "Method not allowed" } := by
  simp [makeQueryHandler, hrl, hmethod]

/-- An admitted POST request whose body does not decode: the handler writes the 400
response with the text of the decoding error. -/
theorem makeQueryHandler_decode (L : GoLib) (W : World) (runner : Runner)
    (trusted : List IPNet) (st st' : HandlerState) (req : Request) (err : String)
    (hrl : handleRateLimit L W st req trusted = (true, st'))
    (hmethod : req.Method = "POST")
    (hdecode : L.DecodeJSON req.Body = Except.error err) :
    makeQueryHandler L W runner trusted st req =
      { st' with
        events := st'.events ++ [Event.logRequest req.Method req.RemoteAddr req.Path]
        writer := writeErrorResponse W st'.writer StatusBadRequest emptyRequestPayload err } := by
  simp [makeQueryHandler, hrl, hmethod, decodeRequestPayload, hdecode]

/-- An admitted POST request whose payload `Validate` rejects: the handler writes the
response with the status and message of `Validate`. -/
theorem makeQueryHandler_invalid (L : GoLib) (W : World) (runner : Runner)
    (trusted : List IPNet) (st st' : HandlerState) (req : Request) (payload : RequestPayload)
    (hrl : handleRateLimit L W st req trusted = (true, st'))
    (hmethod : req.Method = "POST")
    (hdecode : L.DecodeJSON req.Body = Except.ok payload)
    (hvalid : (Validate payload).1 = false) :
    makeQueryHandler L W runner trusted st req =
      { st' with
        events := st'.events ++ [Event.logRequest req.Method req.RemoteAddr req.Path]
        writer := writeErrorResponse W st'.writer (Validate payload).2.1 payload
          (Validate payload).2.2 } := by
  simp [makeQueryHandler, hrl, hmethod, decodeRequestPayload, hdecode, validatePayload, hvalid]

/-- An admitted POST request with a valid payload: the handler calls `Run` on the payload,
once, after it has logged the request and the query. -/
theorem makeQueryHandler_run (L : GoLib) (W : World) (runner : Runner)
    (trusted : List IPNet) (st st' : HandlerState) (req : Request) (payload : RequestPayload)
    (hrl : handleRateLimit L W st req trusted = (true, st'))
    (hmethod : req.Method = "POST")
    (hdecode : L.DecodeJSON req.Body = Except.ok payload)
    (hvalid : (Validate payload).1 = true) :
    ∃ tail, (makeQueryHandler L W runner trusted st req).events =
      st'.events ++ [Event.logRequest req.Method req.RemoteAddr req.Path,
        Event.logQuery payload (ClientIP L req trusted), Event.run payload] ++ tail ∧
      ∀ p, Event.run p ∉ tail := by
  by_cases hout : (Run L W.exec runner payload).1.length = 0
  · refine ⟨[Event.logEmpty payload (ClientIP L req trusted) (Run L W.exec runner payload).2.2],
      ?_, ?_⟩
    · simp [makeQueryHandler, hrl, hmethod, decodeRequestPayload, hdecode, validatePayload,
        hvalid, hout]
    · intro p
      simp
  · refine ⟨[], ?_, ?_⟩
    · simp [makeQueryHandler, hrl, hmethod, decodeRequestPayload, hdecode, validatePayload,
        hvalid, hout]
    · intro p
      simp

/-- The two outcomes of `Validate`: acceptance with `(true, 200, "")`, or a refusal with
status 400. -/
theorem Validate_outcomes (req : RequestPayload) :
    ((Validate req).1 = true ∧ Validate req = (true, 200, "")) ∨
    ((Validate req).1 = false ∧ (Validate req).2.1 = 400 ∧ Validate req ≠ (true, 200, "")) := by
  unfold Validate
  split_ifs <;> simp [StatusOK, StatusBadRequest]

/-- The two outcomes of `handleRateLimit` on a fresh handler state: the request is admitted
and nothing is written, or it is refused and the 429 response with `Retry-After: 1` is
written; in both the resolver has not been called. -/
theorem handleRateLimit_outcomes (L : GoLib) (W : World) (limiter : Option Manager)
    (req : Request) (trusted : List IPNet) :
    (Admitted L W limiter req trusted ∧
      ∃ st', handleRateLimit L W (HandlerState.start limiter) req trusted = (true, st') ∧
        NoRun st'.events) ∨
    (¬ Admitted L W limiter req trusted ∧
      ∃ st', handleRateLimit L W (HandlerState.start limiter) req trusted = (false, st') ∧
        NoRun st'.events ∧ ErrorAnswer st'.writer 429 ∧
        st'.writer.GetHeader "Retry-After" = "1") := by
  cases limiter with
  | none =>
    left
    refine ⟨fun m hm => (by cases hm), HandlerState.start none, ?_, ?_⟩
    · exact handleRateLimit_none L W _ req trusted rfl
    · intro p
      simp [HandlerState.start]
  | some m =>
    have hrl := handleRateLimit_some L W (HandlerState.start (some m)) req trusted m rfl
    by_cases ha : (m.Allow L W.now (ClientIP L req trusted)).1 = true
    · left
      rw [if_pos ha] at hrl
      refine ⟨?_, _, hrl, ?_⟩
      · intro m' hm'
        cases hm'
        exact ha
      · intro p
        simp [HandlerState.start]
    · right
      rw [if_neg ha] at hrl
      refine ⟨?_, _, hrl, ?_, ?_, ?_⟩
      · intro hadm
        exact ha (hadm m rfl)
      · intro p
        simp [HandlerState.start]
      · exact (writeErrorResponse_answer W _ StatusTooManyRequests _ _).1
      · have h := (writeErrorResponse_answer W
          ((HandlerState.start (some m)).writer.SetHeader "Retry-After" "1")
          StatusTooManyRequests emptyRequestPayload "rate limit exceeded").2
        simp only [h]
        simp [ResponseWriter.SetHeader, ResponseWriter.GetHeader]

/-- C2: in the `/query` handler the resolver's `Run` is called only when every earlier
stage passed: the limiter admitted the request (or there is no limiter), the method is
POST, the body decoded and `Validate` accepted the payload. Otherwise the handler answers
with the status of the first failing stage, in the order rate limit (429, with the header
`Retry-After: 1`), method (405), decoding (400), validation (400), each with
`success = false`, and `Run` is not called. When every stage passes, `Run` is called on
the decoded payload. -/
theorem makeQueryHandler_stages (L : GoLib) (W : World) (runner : Runner)
    (trusted : List IPNet) (limiter : Option Manager) (req : Request) :
    (∀ p, Event.run p ∈
        (makeQueryHandler L W runner trusted (HandlerState.start limiter) req).events →
      Admitted L W limiter req trusted ∧ req.Method = "POST" ∧
        L.DecodeJSON req.Body = Except.ok p ∧ Validate p = (true, 200, "")) ∧
    (¬ Admitted L W limiter req trusted →
      ErrorAnswer (makeQueryHandler L W runner trusted (HandlerState.start limiter) req).writer
        429 ∧
      (makeQueryHandler L W runner trusted (HandlerState.start limiter) req).writer.GetHeader
        "Retry-After" = "1" ∧
      NoRun (makeQueryHandler L W runner trusted (HandlerState.start limiter) req).events) ∧
    (Admitted L W limiter req trusted → req.Method ≠ "POST" →
      ErrorAnswer (makeQueryHandler L W runner trusted (HandlerState.start limiter) req).writer
        405 ∧
      NoRun (makeQueryHandler L W runner trusted (HandlerState.start limiter) req).events) ∧
    (Admitted L W limiter req trusted → req.Method = "POST" →
      ∀ err, L.DecodeJSON req.Body = Except.error err →
      ErrorAnswer (makeQueryHandler L W runner trusted (HandlerState.start limiter) req).writer
        400 ∧
      NoRun (makeQueryHandler L W runner trusted (HandlerState.start limiter) req).events) ∧
    (Admitted L W limiter req trusted → req.Method = "POST" →
      ∀ p, L.DecodeJSON req.Body = Except.ok p → Validate p ≠ (true, 200, "") →
      ErrorAnswer (makeQueryHandler L W runner trusted (HandlerState.start limiter) req).writer
        400 ∧
      NoRun (makeQueryHandler L W runner trusted (HandlerState.start limiter) req).events) ∧
    (Admitted L W limiter req trusted → req.Method = "POST" →
      ∀ p, L.DecodeJSON req.Body = Except.ok p → Validate p = (true, 200, "") →
      Event.run p ∈
        (makeQueryHandler L W runner trusted (HandlerState.start limiter) req).events) := by
  have hlog : ∀ (events : List Event) (e : Event), NoRun events → (∀ p, e ≠ Event.run p) →
      NoRun (events ++ [e]) := by
    intro events e hno he p hp
    rcases List.mem_append.1 hp with h | h
    · exact hno p h
    · simp only [List.mem_singleton] at h
      exact he p h.symm
  -- what the handler does in each of the five outcomes
  have hrefused : ¬ Admitted L W limiter req trusted →
      ErrorAnswer (makeQueryHandler L W runner trusted (HandlerState.start limiter) req).writer
        429 ∧
      (makeQueryHandler L W runner trusted (HandlerState.start limiter) req).writer.GetHeader
        "Retry-After" = "1" ∧
      NoRun (makeQueryHandler L W runner trusted (HandlerState.start limiter) req).events := by
    intro hna
    rcases handleRateLimit_outcomes L W limiter req trusted with ⟨ha, -⟩ | ⟨-, st', hrl, h1, h2, h3⟩
    · exact absurd ha hna
    · rw [makeQueryHandler_refused L W runner trusted _ st' req hrl]
      exact ⟨h2, h3, h1⟩
  have hmethod : Admitted L W limiter req trusted → req.Method ≠ "POST" →
      ErrorAnswer (makeQueryHandler L W runner trusted (HandlerState.start limiter) req).writer
        405 ∧
      NoRun (makeQueryHandler L W runner trusted (HandlerState.start limiter) req).events := by
    intro ha hm
    rcases handleRateLimit_outcomes L W limiter req trusted with ⟨-, st', hrl, h1⟩ | ⟨hna, -⟩
    · rw [makeQueryHandler_method L W runner trusted _ st' req hrl hm]
      exact ⟨(writeErrorResponse_answer W _ StatusMethodNotAllowed _ _).1,
        hlog _ _ h1 (fun p h => by cases h)⟩
    · exact absurd ha hna
  have hdecode : Admitted L W limiter req trusted → req.Method = "POST" →
      ∀ err, L.DecodeJSON req.Body = Except.error err →
      ErrorAnswer (makeQueryHandler L W runner trusted (HandlerState.start limiter) req).writer
        400 ∧
      NoRun (makeQueryHandler L W runner trusted (HandlerState.start limiter) req).events := by
    intro ha hm err hd
    rcases handleRateLimit_outcomes L W limiter req trusted with ⟨-, st', hrl, h1⟩ | ⟨hna, -⟩
    · rw [makeQueryHandler_decode L W runner trusted _ st' req err hrl hm hd]
      exact ⟨(writeErrorResponse_answer W _ StatusBadRequest _ _).1,
        hlog _ _ h1 (fun p h => by cases h)⟩
    · exact absurd ha hna
  have hinvalid : Admitted L W limiter req trusted → req.Method = "POST" →
      ∀ p, L.DecodeJSON req.Body = Except.ok p → Validate p ≠ (true, 200, "") →
      ErrorAnswer (makeQueryHandler L W runner trusted (HandlerState.start limiter) req).writer
        400 ∧
      NoRun (makeQueryHandler L W runner trusted (HandlerState.start limiter) req).events := by
    intro ha hm p hd hv
    rcases Validate_outcomes p with ⟨-, hacc⟩ | ⟨hv1, hv2, -⟩
    · exact absurd hacc hv
    · rcases handleRateLimit_outcomes L W limiter req trusted with ⟨-, st', hrl, h1⟩ | ⟨hna, -⟩
      · rw [makeQueryHandler_invalid L W runner trusted _ st' req p hrl hm hd hv1]
        refine ⟨?_, hlog _ _ h1 (fun p h => by cases h)⟩
        have h := (writeErrorResponse_answer W st'.writer (Validate p).2.1 p (Validate p).2.2).1
        simp only [hv2] at h ⊢
        exact h
      · exact absurd ha hna
  have hrun : Admitted L W limiter req trusted → req.Method = "POST" →
      ∀ p, L.DecodeJSON req.Body = Except.ok p → Validate p = (true, 200, "") →
      Event.run p ∈
        (makeQueryHandler L W runner trusted (HandlerState.start limiter) req).events := by
    intro ha hm p hd hv
    rcases handleRateLimit_outcomes L W limiter req trusted with ⟨-, st', hrl, -⟩ | ⟨hna, -⟩
    · obtain ⟨tail, hev, -⟩ := makeQueryHandler_run L W runner trusted _ st' req p hrl hm hd
        (by rw [hv])
      rw [hev]
      simp
    · exact absurd ha hna
  refine ⟨?_, hrefused, hmethod, hdecode, hinvalid, hrun⟩
  -- a call of `Run` excludes each of the four failures
  intro p hp
  by_cases ha : Admitted L W limiter req trusted
  swap
  · exact absurd hp ((hrefused ha).2.2 p)
  by_cases hm : req.Method = "POST"
  swap
  · exact absurd hp ((hmethod ha hm).2 p)
  cases hd : L.DecodeJSON req.Body with
  | error err => exact absurd hp ((hdecode ha hm err hd).2 p)
  | ok q =>
    by_cases hv : Validate q = (true, 200, "")
    swap
    · exact absurd hp ((hinvalid ha hm q hd hv).2 p)
    rcases handleRateLimit_outcomes L W limiter req trusted with ⟨-, st', hrl, h1⟩ | ⟨hna, -⟩
    swap
    · exact absurd ha hna
    obtain ⟨tail, hev, htail⟩ := makeQueryHandler_run L W runner trusted _ st' req q hrl hm hd
      (by rw [hv])
    rw [hev] at hp
    have hpq : p = q := by
      simp only [List.mem_append, List.mem_cons, List.mem_singleton, List.not_mem_nil,
        or_false] at hp
      rcases hp with (h | h | h | h) | h
      · exact absurd h (h1 p)
      · cases h
      · cases h
      · exact Event.run.inj h
      · exact absurd h (htail p)
    rw [hpq]
    exact ⟨ha, hm, rfl, hv⟩

/-- C2, at two concrete requests: with no limiter a GET request is answered 405, and with
a limiter of burst 0 a request is answered 429 with `Retry-After: 1`; in both the resolver
is not called. -/
theorem makeQueryHandler_stages_witness :
    (ErrorAnswer (makeQueryHandler goLib exampleWorld (NewRunner 5000000000 32768) []
        (HandlerState.start none)
        { exampleRequest "192.0.2.1:54321" "" "" with Method := "GET" }).writer 405 ∧
      NoRun (makeQueryHandler goLib exampleWorld (NewRunner 5000000000 32768) []
        (HandlerState.start none)
        { exampleRequest "192.0.2.1:54321" "" "" with Method := "GET" }).events) ∧
    (ErrorAnswer (makeQueryHandler goLib exampleWorld (NewRunner 5000000000 32768) []
        (HandlerState.start (some (NewManager 10 0)))
        (exampleRequest "192.0.2.1:54321" "" "")).writer 429 ∧
      (makeQueryHandler goLib exampleWorld (NewRunner 5000000000 32768) []
        (HandlerState.start (some (NewManager 10 0)))
        (exampleRequest "192.0.2.1:54321" "" "")).writer.GetHeader "Retry-After" = "1" ∧
      NoRun (makeQueryHandler goLib exampleWorld (NewRunner 5000000000 32768) []
        (HandlerState.start (some (NewManager 10 0)))
        (exampleRequest "192.0.2.1:54321" "" "")).events) := by
  constructor
  · exact (makeQueryHandler_stages goLib exampleWorld (NewRunner 5000000000 32768) [] none
      { exampleRequest "192.0.2.1:54321" "" "" with Method := "GET" }).2.2.1
      (fun m hm => by cases hm) (by decide)
  · apply (makeQueryHandler_stages goLib exampleWorld (NewRunner 5000000000 32768) []
      (some (NewManager 10 0)) (exampleRequest "192.0.2.1:54321" "" "")).2.1
    intro hadm
    have h := hadm (NewManager 10 0) rfl
    rw [Manager.Allow_fst] at h
    simp [Manager.bucket, NewManager, NewLimiter, Limiter.Allow, Limiter.AllowN] at h

/-! ## The command builders, on the requests of the tests -/

/-- C11, as stated, fails: the request with nameserver `1.1.1.1`, name `+tls`,
type `A` and the empty transport passes `Validate`, and its argument vector
`["@1.1.1.1", "+tls", "A"]` has the element `+tls`. -/
theorem buildKdigArgs_name_is_flag :
    Validate (examplePayload "1.1.1.1" "+tls" "A" "") = (true, 200, "") ∧
    (examplePayload "1.1.1.1" "+tls" "A" "").Transport = "" ∧
    buildKdigArgs goLib (examplePayload "1.1.1.1" "+tls" "A" "") = ["@1.1.1.1", "+tls", "A"] ∧
    ¬ (∀ a ∈ buildKdigArgs goLib (examplePayload "1.1.1.1" "+tls" "A" ""),
        ¬ IsTransportFlag a) := by
  refine ⟨by decide, rfl, by decide, ?_⟩
  intro h
  exact h "+tls" (by decide) (by decide)

/-- C11, amended: for a request with transport `tls`, `AsJSON` set and type `AAAA`, the
argument vector contains `+tls`, `+json` and `AAAA`. For a request with the empty transport
the builder adds no transport flag: the vector is `["@" + Nameserver, Name, Type]` followed
by the DNSSEC, JSON and short flags only, so none of its elements is `+tcp`, `+tls` or
`+https` when neither the name nor the type is itself one of these texts. -/
theorem buildKdigArgs_transport_flags (L : GoLib) (req : RequestPayload) :
    (req.Transport = "tls" → req.AsJSON = true → req.Type_ = "AAAA" →
      "+tls" ∈ buildKdigArgs L req ∧ "+json" ∈ buildKdigArgs L req ∧
        "AAAA" ∈ buildKdigArgs L req) ∧
    (req.Transport = "" →
      buildKdigArgs L req =
        ["@" ++ req.Nameserver, req.Name, req.Type_] ++
          (if req.DNSSEC then ["+dnssec", "+do"] else []) ++
          (if req.AsJSON then ["+json"] else []) ++
          (if req.Short then ["+short"] else [])) ∧
    (req.Transport = "" → ¬ IsTransportFlag req.Name → ¬ IsTransportFlag req.Type_ →
      ∀ a ∈ buildKdigArgs L req, ¬ IsTransportFlag a) := by
  have hlayout : req.Transport = "" →
      buildKdigArgs L req =
        ["@" ++ req.Nameserver, req.Name, req.Type_] ++
          (if req.DNSSEC then ["+dnssec", "+do"] else []) ++
          (if req.AsJSON then ["+json"] else []) ++
          (if req.Short then ["+short"] else []) := by
    intro ht
    have hlow : ToLower L req.Transport = "" := by rw [ht]; rfl
    simp only [buildKdigArgs, hlow]
    split_ifs <;> simp_all
  refine ⟨?_, hlayout, ?_⟩
  · intro ht hj hty
    have hlow : ToLower L req.Transport = "tls" := by rw [ht]; rfl
    simp only [buildKdigArgs, hlow, hj, hty]
    split_ifs <;> simp_all
  · intro ht hname htype a ha
    rw [hlayout ht] at ha
    have hat : ∀ x : String, ¬ IsTransportFlag ("@" ++ x) := by
      intro x hx
      have hhead : ∀ y : String, ("@" ++ x) = y → y.data.head? = some '@' := by
        intro y hy
        rw [← hy, String.data_append]
        rfl
      rcases hx with h | h | h
      · have := hhead _ h
        revert this
        decide
      · have := hhead _ h
        revert this
        decide
      · have := hhead _ h
        revert this
        decide
    simp only [List.mem_append, List.mem_cons, List.mem_singleton, List.not_mem_nil,
      or_false] at ha
    rcases ha with (((h | h | h) | h) | h) | h
    · rw [h]; exact hat _
    · rw [h]; exact hname
    · rw [h]; exact htype
    · split_ifs at h
      · simp only [List.mem_cons, List.mem_singleton, List.not_mem_nil, or_false] at h
        rcases h with h | h <;> rw [h] <;> decide
      · simp at h
    · split_ifs at h
      · simp only [List.mem_singleton] at h
        rw [h]; decide
      · simp at h
    · split_ifs at h
      · simp only [List.mem_singleton] at h
        rw [h]; decide
      · simp at h

/-! ## `Runner.Run` -/

/-- The method `Run` on a successful run of the tool: the output, cut to `MaxOutput` bytes
when `MaxOutput` is positive and the output is longer, with the command string and no
error. -/
theorem Run_ok (L : GoLib) (exec : List String → ExecResult) (r : Runner)
    (req : RequestPayload) (s : Bytes) (hexec : exec (buildKdigArgs L req) = ExecResult.ok s) :
    Run L exec r req =
      ((if r.MaxOutput > 0 ∧ (s.length : Int) > r.MaxOutput then s.take r.MaxOutput.toNat
        else s), buildKdigCommand L req, none) := by
  simp only [Run, hexec]

/-- The method `Run` on a failed run of the tool: no output, the command string, and the
error built from the cause and the captured standard error. -/
theorem Run_failed (L : GoLib) (exec : List String → ExecResult) (r : Runner)
    (req : RequestPayload) (cause : String) (exitStderr : Option String)
    (hexec : exec (buildKdigArgs L req) = ExecResult.failed cause exitStderr) :
    Run L exec r req =
      ([], buildKdigCommand L req, some
        (match exitStderr with
        | some stderr =>
          if stderr.length > 0 then "kdig failed: " ++ cause ++ ": " ++ TrimSpace stderr
          else "kdig failed: " ++ cause
        | none => "kdig failed: " ++ cause)) := by
  cases exitStderr <;> simp only [Run, hexec]

/-- C12: for a runner with a positive `MaxOutput` and a successful run of the tool with
standard output `s`: when `s` is longer than `MaxOutput`, `Run` returns the first
`MaxOutput` bytes of `s`, exactly `MaxOutput` bytes and nothing added; when `s` is at most
`MaxOutput` bytes long, `Run` returns `s` unchanged; in both cases the error is nil. -/
theorem Run_truncates (L : GoLib) (exec : List String → ExecResult) (r : Runner)
    (req : RequestPayload) (s : Bytes)
    (hmax : 0 < r.MaxOutput)
    (hexec : exec (buildKdigArgs L req) = ExecResult.ok s) :
    ((s.length : Int) > r.MaxOutput →
      (Run L exec r req).1 = s.take r.MaxOutput.toNat ∧
      ((Run L exec r req).1.length : Int) = r.MaxOutput) ∧
    ((s.length : Int) ≤ r.MaxOutput → (Run L exec r req).1 = s) ∧
    (Run L exec r req).2.2 = none := by
  rw [Run_ok L exec r req s hexec]
  refine ⟨?_, ?_, rfl⟩
  · intro hlong
    have hc : r.MaxOutput > 0 ∧ (s.length : Int) > r.MaxOutput := ⟨hmax, hlong⟩
    simp only [hc, and_self, if_true, true_and]
    rw [List.length_take]
    omega
  · intro hshort
    have hc : ¬ (r.MaxOutput > 0 ∧ (s.length : Int) > r.MaxOutput) := by
      rintro ⟨-, h⟩
      omega
    simp only [hc, if_false]

/-- C12, at a runner with `MaxOutput = 2` and a tool that prints the three bytes
`1, 2, 3`: the first two bytes come back, and no error. -/
theorem Run_truncates_witness :
    (Run goLib (fun _ => ExecResult.ok [1, 2, 3]) (NewRunner 5000000000 2)
      (examplePayload "1.1.1.1" "example.com" "A" "")).1 = [1, 2] ∧
    (Run goLib (fun _ => ExecResult.ok [1, 2, 3]) (NewRunner 5000000000 2)
      (examplePayload "1.1.1.1" "example.com" "A" "")).2.2 = none := by
  have h := Run_truncates goLib (fun _ => ExecResult.ok [1, 2, 3]) (NewRunner 5000000000 2)
    (examplePayload "1.1.1.1" "example.com" "A" "") [1, 2, 3] (by decide) rfl
  exact ⟨(h.1 (by decide)).1, h.2.2⟩

/-- C13, as stated, fails: the runner `NewRunner(5s, 0)` returns the one byte
the tool printed, which is more than its `MaxOutput` of 0. -/
theorem Run_exceeds_zero_max :
    (Run goLib (fun _ => ExecResult.ok [65]) (NewRunner 5000000000 0)
      (examplePayload "1.1.1.1" "example.com" "A" "")).1 = [65] ∧
    ¬ (((Run goLib (fun _ => ExecResult.ok [65]) (NewRunner 5000000000 0)
      (examplePayload "1.1.1.1" "example.com" "A" "")).1.length : Int) ≤
        (NewRunner 5000000000 0).MaxOutput) := by
  constructor
  · rfl
  · decide

/-- C13, amended: for every runner `NewRunner(timeout, maxOutput)` with a positive
`maxOutput` and every result of running the tool, the output `Run` returns is at most
`maxOutput` bytes long. A `maxOutput` of zero or less switches the cap off: on success the
output is returned whole. -/
theorem Run_output_bounded (L : GoLib) (exec : List String → ExecResult)
    (timeout maxOutput : Int) (req : RequestPayload)
    (hmax : 0 < maxOutput) :
    ((Run L exec (NewRunner timeout maxOutput) req).1.length : Int) ≤
      (NewRunner timeout maxOutput).MaxOutput ∧
    (∀ (exec' : List String → ExecResult) (maxOutput' : Int) (s : Bytes), maxOutput' ≤ 0 →
      exec' (buildKdigArgs L req) = ExecResult.ok s →
      (Run L exec' (NewRunner timeout maxOutput') req).1 = s) := by
  constructor
  · cases hexec : exec (buildKdigArgs L req) with
    | ok s =>
      rw [Run_ok L exec _ req s hexec]
      simp only [NewRunner]
      by_cases hlong : (s.length : Int) > maxOutput
      · have hc : maxOutput > 0 ∧ (s.length : Int) > maxOutput := ⟨hmax, hlong⟩
        simp only [hc, and_self, if_true]
        rw [List.length_take]
        omega
      · have hc : ¬ (maxOutput > 0 ∧ (s.length : Int) > maxOutput) := fun h => hlong h.2
        simp only [hc, if_false]
        omega
    | failed cause exitStderr =>
      rw [Run_failed L exec _ req cause exitStderr hexec]
      simp only [NewRunner, List.length_nil]
      omega
  · intro exec' maxOutput' s hle hexec
    rw [Run_ok L exec' _ req s hexec]
    have hc : ¬ ((NewRunner timeout maxOutput').MaxOutput > 0 ∧
        (s.length : Int) > (NewRunner timeout maxOutput').MaxOutput) := by
      rintro ⟨h, -⟩
      simp only [NewRunner] at h
      omega
    simp only [hc, if_false]

/-- C13, amended, at the settings of `main.go`, a runner of `32 * 1024` bytes, and a tool
that prints three bytes. -/
theorem Run_output_bounded_witness :
    ((Run goLib (fun _ => ExecResult.ok [1, 2, 3]) (NewRunner 5000000000 32768)
      (examplePayload "1.1.1.1" "example.com" "A" "")).1.length : Int) ≤
      (NewRunner 5000000000 32768).MaxOutput :=
  (Run_output_bounded goLib (fun _ => ExecResult.ok [1, 2, 3]) 5000000000 32768
    (examplePayload "1.1.1.1" "example.com" "A" "") (by decide)).1

/-- When the run of the tool fails, `Run` returns no output, a non-nil error and the
command string `buildKdigCommand(req)`, the one it returns whatever the run gives. The
error text is `kdig failed: <cause>: <trimmed stderr>` when the failure is an exit error
with non-empty captured standard error, and `kdig failed: <cause>` in every other case;
the two texts are never the same. -/
theorem Run_failure (L : GoLib) (exec : List String → ExecResult) (r : Runner)
    (req : RequestPayload) (cause : String) (exitStderr : Option String)
    (hexec : exec (buildKdigArgs L req) = ExecResult.failed cause exitStderr) :
    (Run L exec r req).1 = [] ∧
    (Run L exec r req).2.1 = buildKdigCommand L req ∧
    (∀ exec' : List String → ExecResult, (Run L exec' r req).2.1 = buildKdigCommand L req) ∧
    (Run L exec r req).2.2 ≠ none ∧
    (∀ stderr, exitStderr = some stderr → stderr ≠ "" →
      (Run L exec r req).2.2 =
        some ("kdig failed: " ++ cause ++ ": " ++ TrimSpace stderr)) ∧
    ((exitStderr = none ∨ exitStderr = some "") →
      (Run L exec r req).2.2 = some ("kdig failed: " ++ cause)) ∧
    (∀ text : String, "kdig failed: " ++ cause ++ ": " ++ text ≠ "kdig failed: " ++ cause) := by
  have hrun := Run_failed L exec r req cause exitStderr hexec
  refine ⟨by rw [hrun], by rw [hrun], ?_, by rw [hrun]; simp, ?_, ?_, ?_⟩
  · intro exec'
    cases h : exec' (buildKdigArgs L req) with
    | ok s => rw [Run_ok L exec' r req s h]
    | failed c e => rw [Run_failed L exec' r req c e h]
  · intro stderr hs hne
    have hlen : stderr.length > 0 := by
      have h0 : stderr.length ≠ 0 := by
        intro h
        apply hne
        apply String.ext
        exact List.length_eq_zero.1 h
      omega
    subst hs
    rw [hrun]
    simp only [hlen, if_true]
  · intro h
    rcases h with h | h
    · subst h
      rw [hrun]
    · subst h
      rw [hrun]
      rfl
  · intro text h
    have hl := congrArg String.length h
    simp only [String.length_append] at hl
    have h2 : ": ".length = 2 := rfl
    omega

/-- The failure of a tool that exits with status 1 after writing a line to its standard
error, and of a tool that fails without an exit error. -/
theorem Run_failure_witness :
    Run goLib (fun _ => ExecResult.failed "exit status 1" (some " no servers\n"))
      (NewRunner 5000000000 32768) (examplePayload "1.1.1.1" "example.com" "A" "") =
      ([], "kdig @1.1.1.1 example.com A", some "kdig failed: exit status 1: no servers") ∧
    (Run goLib (fun _ => ExecResult.failed "context deadline exceeded" none)
      (NewRunner 5000000000 32768) (examplePayload "1.1.1.1" "example.com" "A" "")).2.2 =
      some "kdig failed: context deadline exceeded" := by
  have h₁ := Run_failure goLib (fun _ => ExecResult.failed "exit status 1" (some " no servers\n"))
    (NewRunner 5000000000 32768) (examplePayload "1.1.1.1" "example.com" "A" "")
    "exit status 1" (some " no servers\n") rfl
  have h₂ := Run_failure goLib (fun _ => ExecResult.failed "context deadline exceeded" none)
    (NewRunner 5000000000 32768) (examplePayload "1.1.1.1" "example.com" "A" "")
    "context deadline exceeded" none rfl
  refine ⟨?_, h₂.2.2.2.2.2.1 (Or.inl rfl)⟩
  have ha := h₁.1
  have hb := h₁.2.1
  have hc := h₁.2.2.2.2.1 " no servers\n" rfl (by decide)
  refine Prod.ext ha (Prod.ext ?_ ?_)
  · rw [hb]
    decide
  · rw [hc]
    decide

/-! ## `ClientIP` and the connection address -/

/-- With a non-empty trusted list `ClientIP` is a search: the first acceptable entry of
`X-Forwarded-For`, else the trimmed `X-Real-IP` value when it is acceptable, else the host
of the connection address. -/
theorem ClientIP_eq_search (L : GoLib) (req : Request) (trusted : List IPNet)
    (hlib : L.ParseIP "" = []) (htrusted : trusted ≠ []) :
    ClientIP L req trusted =
      match (headerEntries (req.Header "X-Forwarded-For")).find?
          fun e => decide (Acceptable L trusted e) with
      | some e => e
      | none =>
        if Acceptable L trusted (TrimSpace (req.Header "X-Real-IP"))
        then TrimSpace (req.Header "X-Real-IP")
        else hostFromRemote L req := by
  have hlen : trusted.length ≠ 0 := by
    simpa [List.length_eq_zero] using htrusted
  have hempty : ¬ Acceptable L trusted "" := fun h => h.1 hlib
  have hreal : (if TrimSpace (req.Header "X-Real-IP") ≠ "" ∧
        L.ParseIP (TrimSpace (req.Header "X-Real-IP")) ≠ [] ∧
        (!ipInNets L (L.ParseIP (TrimSpace (req.Header "X-Real-IP"))) trusted) = true
      then TrimSpace (req.Header "X-Real-IP") else hostFromRemote L req) =
      if Acceptable L trusted (TrimSpace (req.Header "X-Real-IP"))
      then TrimSpace (req.Header "X-Real-IP")
      else hostFromRemote L req := by
    by_cases hacc : Acceptable L trusted (TrimSpace (req.Header "X-Real-IP"))
    · have hne : TrimSpace (req.Header "X-Real-IP") ≠ "" := by
        intro h0
        rw [h0] at hacc
        exact hempty hacc
      have hin := (ipInNets_eq_false L trusted _ hacc.1).2 hacc.2
      simp [hacc, hne, hacc.1, hin]
    · have hcond : ¬ (TrimSpace (req.Header "X-Real-IP") ≠ "" ∧
          L.ParseIP (TrimSpace (req.Header "X-Real-IP")) ≠ [] ∧
          (!ipInNets L (L.ParseIP (TrimSpace (req.Header "X-Real-IP"))) trusted) = true) := by
        rintro ⟨-, h1, h2⟩
        apply hacc
        refine ⟨h1, (ipInNets_eq_false L trusted _ h1).1 ?_⟩
        simpa using h2
      rw [if_neg hcond, if_neg hacc]
  rw [← hreal]
  by_cases h0 : req.Header "X-Forwarded-For" = ""
  · have hfind : (headerEntries (req.Header "X-Forwarded-For")).find?
        (fun e => decide (Acceptable L trusted e)) = none := by
      rw [h0, headerEntries_empty]
      simp [List.find?, hempty]
    rw [hfind]
    simp [ClientIP, hlen, h0]
  · unfold headerEntries
    rw [← firstUntrusted_eq_find]
    simp only [ClientIP, hlen, h0, if_false, ne_eq, not_false_eq_true, if_true]

/-- C15, as stated, fails: with the trusted range `10.0.0.0/8`, a request from
`198.51.100.7:5555`, an address in no trusted range, that carries the header
`X-Forwarded-For: 203.0.113.5` resolves to `203.0.113.5`, not to `198.51.100.7`. -/
theorem ClientIP_untrusted_peer_sets_address :
    [net10] ≠ [] ∧
    hostFromRemote goLib (exampleRequest "198.51.100.7:5555" "203.0.113.5" "") = "198.51.100.7" ∧
    Acceptable goLib [net10] "198.51.100.7" ∧
    ClientIP goLib (exampleRequest "198.51.100.7:5555" "203.0.113.5" "") [net10] = "203.0.113.5" ∧
    ClientIP goLib (exampleRequest "198.51.100.7:5555" "203.0.113.5" "") [net10] ≠
      hostFromRemote goLib (exampleRequest "198.51.100.7:5555" "203.0.113.5" "") := by
  refine ⟨by decide, by decide, by decide, by decide, by decide⟩

/-- C15, amended: headers are trusted as soon as a trusted-proxy list is configured,
whatever the connection address. For every non-empty trusted list and every request, also
one whose connection address lies in no trusted range, `ClientIP` returns the host of
`RemoteAddr` when neither header supplies an acceptable address (`X-Forwarded-For` absent
or without acceptable entry, and `X-Real-IP` not acceptable); when `X-Forwarded-For` has an
acceptable entry it returns the first one, and otherwise an acceptable `X-Real-IP` value.
`hlib` is the fact that `net.ParseIP` rejects the empty text. -/
theorem ClientIP_peer_not_checked (L : GoLib) (req : Request) (trusted : List IPNet)
    (hlib : L.ParseIP "" = []) (htrusted : trusted ≠ []) :
    ((req.Header "X-Forwarded-For" = "" ∨
        ∀ e ∈ headerEntries (req.Header "X-Forwarded-For"), ¬ Acceptable L trusted e) →
      ¬ Acceptable L trusted (TrimSpace (req.Header "X-Real-IP")) →
      ClientIP L req trusted = hostFromRemote L req) ∧
    (∀ e, (headerEntries (req.Header "X-Forwarded-For")).find?
        (fun x => decide (Acceptable L trusted x)) = some e →
      ClientIP L req trusted = e) ∧
    ((headerEntries (req.Header "X-Forwarded-For")).find?
        (fun x => decide (Acceptable L trusted x)) = none →
      Acceptable L trusted (TrimSpace (req.Header "X-Real-IP")) →
      ClientIP L req trusted = TrimSpace (req.Header "X-Real-IP")) := by
  have hsearch := ClientIP_eq_search L req trusted hlib htrusted
  have hempty : ¬ Acceptable L trusted "" := fun h => h.1 hlib
  refine ⟨?_, ?_, ?_⟩
  · intro hxff hxr
    have hfind : (headerEntries (req.Header "X-Forwarded-For")).find?
        (fun e => decide (Acceptable L trusted e)) = none := by
      rcases hxff with h0 | hall
      · rw [h0, headerEntries_empty]
        simp [List.find?, hempty]
      · rw [List.find?_eq_none]
        intro x hx
        simpa using hall x hx
    rw [hsearch, hfind]
    simp only [hxr, if_false]
  · intro e he
    rw [hsearch, he]
  · intro hnone hxr
    rw [hsearch, hnone]
    simp only [hxr, if_true]

/-- C15, amended, at two requests from `198.51.100.7:5555` with the trusted range
`10.0.0.0/8`: with only trusted addresses in its headers the request resolves to the
connection host, and with the forwarded entry `203.0.113.5` to that entry. -/
theorem ClientIP_peer_not_checked_witness :
    ClientIP goLib (exampleRequest "198.51.100.7:5555" "10.0.0.1" "10.0.0.2") [net10] =
      hostFromRemote goLib (exampleRequest "198.51.100.7:5555" "10.0.0.1" "10.0.0.2") ∧
    ClientIP goLib (exampleRequest "198.51.100.7:5555" "10.0.0.1, 203.0.113.5" "") [net10] =
      "203.0.113.5" :=
  ⟨(ClientIP_peer_not_checked goLib (exampleRequest "198.51.100.7:5555" "10.0.0.1" "10.0.0.2")
      [net10] (by decide) (by decide)).1 (Or.inr (by decide)) (by decide),
    (ClientIP_peer_not_checked goLib
      (exampleRequest "198.51.100.7:5555" "10.0.0.1, 203.0.113.5" "")
      [net10] (by decide) (by decide)).2.1 "203.0.113.5" (by decide)⟩

/-! ## The key of the rate limiter -/

/-- C16: the address used for rate limiting is the address `ClientIP` returns. For every
request, every trusted list (empty or not) and every limiter, `handleRateLimit` makes one
call of the limiter's `Allow`, with the key `ClientIP(req, trusted)`, and answers what that
call answers; and when the handler goes on to the resolver, the client address it logs
with the query is this same address. -/
theorem handleRateLimit_key (L : GoLib) (W : World) (st : HandlerState) (req : Request)
    (trusted : List IPNet) (m : Manager) :
    (handleRateLimit L W { st with limiter := some m } req trusted).2.events =
      st.events ++ [Event.allow (ClientIP L req trusted)] ∧
    (handleRateLimit L W { st with limiter := some m } req trusted).1 =
      (m.Allow L W.now (ClientIP L req trusted)).1 ∧
    (handleRateLimit L W { st with limiter := some m } req trusted).2.limiter =
      some (m.Allow L W.now (ClientIP L req trusted)).2 ∧
    (∀ (runner : Runner) (p : RequestPayload),
      (m.Allow L W.now (ClientIP L req trusted)).1 = true → req.Method = "POST" →
      L.DecodeJSON req.Body = Except.ok p → (Validate p).1 = true →
      ∃ tail, (makeQueryHandler L W runner trusted (HandlerState.start (some m)) req).events =
        [Event.allow (ClientIP L req trusted),
          Event.logRequest req.Method req.RemoteAddr req.Path,
          Event.logQuery p (ClientIP L req trusted), Event.run p] ++ tail) := by
  have hrl := handleRateLimit_some L W { st with limiter := some m } req trusted m rfl
  refine ⟨?_, ?_, ?_, ?_⟩
  · rw [hrl]
    split_ifs <;> rfl
  · rw [hrl]
    split_ifs with h
    · exact h.symm
    · simpa using h
  · rw [hrl]
    split_ifs <;> rfl
  · intro runner p hallow hmethod hdecode hvalid
    have hrl' := handleRateLimit_some L W (HandlerState.start (some m)) req trusted m rfl
    rw [if_pos hallow] at hrl'
    obtain ⟨tail, hev, -⟩ := makeQueryHandler_run L W runner trusted _ _ req p hrl' hmethod
      hdecode hvalid
    exact ⟨tail, by rw [hev]; simp [HandlerState.start]⟩

/-! ## `Runner.Run` on timeouts and cancellations -/

/-- C14, as stated, fails: a run of `kdig` that the deadline kills after the process has
written a line to its standard error is a timeout, and `Run` gives it the text with the
standard error, `kdig failed: signal: killed: ;; connection timed out`, not the generic
`kdig failed: signal: killed`. -/
theorem Run_timeout_long_text :
    (Ending.killedByContext ";; connection timed out\n").byContext = true ∧
    Run goLib (fun _ => Output (Ending.killedByContext ";; connection timed out\n"))
      (NewRunner 5000000000 32768) (examplePayload "1.1.1.1" "example.com" "A" "") =
      ([], "kdig @1.1.1.1 example.com A",
        some "kdig failed: signal: killed: ;; connection timed out") ∧
    (Run goLib (fun _ => Output (Ending.killedByContext ";; connection timed out\n"))
      (NewRunner 5000000000 32768) (examplePayload "1.1.1.1" "example.com" "A" "")).2.2 ≠
      some "kdig failed: signal: killed" := by
  refine ⟨rfl, by decide, by decide⟩

/-- C14, amended: when the run of the tool fails, `Run` returns no output, a non-nil error
and the command string `buildKdigCommand(req)` it returns on success. The error text is
`kdig failed: <cause>: <trimmed stderr>` exactly when the failure is an exit error with
non-empty captured standard error, and `kdig failed: <cause>` in every other case. A
timeout or cancellation falls on either side: when the context kills the running process
the failure is the exit error of the killed process, with the long text when the process
had written to standard error and the generic text when it had not; when the context is
done before the process starts the text is the generic one, with the error of the
context. -/
theorem Run_failure_text (L : GoLib) (exec : List String → ExecResult) (r : Runner)
    (req : RequestPayload) (cause : String) (exitStderr : Option String)
    (hexec : exec (buildKdigArgs L req) = ExecResult.failed cause exitStderr) :
    ((Run L exec r req).1 = [] ∧
      (Run L exec r req).2.1 = buildKdigCommand L req ∧
      (∀ exec' : List String → ExecResult, (Run L exec' r req).2.1 = buildKdigCommand L req) ∧
      (Run L exec r req).2.2 ≠ none ∧
      (∀ stderr, exitStderr = some stderr → stderr ≠ "" →
        (Run L exec r req).2.2 =
          some ("kdig failed: " ++ cause ++ ": " ++ TrimSpace stderr)) ∧
      ((exitStderr = none ∨ exitStderr = some "") →
        (Run L exec r req).2.2 = some ("kdig failed: " ++ cause)) ∧
      (∀ text : String,
        "kdig failed: " ++ cause ++ ": " ++ text ≠ "kdig failed: " ++ cause)) ∧
    (∀ stderr, stderr ≠ "" →
      (Ending.killedByContext stderr).byContext = true ∧
      (Run L (fun _ => Output (Ending.killedByContext stderr)) r req).2.2 =
        some ("kdig failed: signal: killed: " ++ TrimSpace stderr)) ∧
    ((Ending.killedByContext "").byContext = true ∧
      (Run L (fun _ => Output (Ending.killedByContext "")) r req).2.2 =
        some "kdig failed: signal: killed") ∧
    (∀ ctxErr,
      (Ending.contextDoneBeforeStart ctxErr).byContext = true ∧
      (Run L (fun _ => Output (Ending.contextDoneBeforeStart ctxErr)) r req).2.2 =
        some ("kdig failed: " ++ ctxErr)) := by
  refine ⟨Run_failure L exec r req cause exitStderr hexec, ?_, ?_, ?_⟩
  · intro stderr hne
    refine ⟨rfl, ?_⟩
    have h := (Run_failure L (fun _ => Output (Ending.killedByContext stderr)) r req
      "signal: killed" (some stderr) rfl).2.2.2.2.1 stderr rfl hne
    have hs : "kdig failed: " ++ "signal: killed" ++ ": " = "kdig failed: signal: killed: " := by
      decide
    rw [h, hs]
  · refine ⟨rfl, ?_⟩
    have h := (Run_failure L (fun _ => Output (Ending.killedByContext "")) r req
      "signal: killed" (some "") rfl).2.2.2.2.2.1 (Or.inr rfl)
    rw [h]
    rfl
  · intro ctxErr
    refine ⟨rfl, ?_⟩
    exact (Run_failure L (fun _ => Output (Ending.contextDoneBeforeStart ctxErr)) r req
      ctxErr none rfl).2.2.2.2.2.1 (Or.inl rfl)

/-- C14, amended, at a tool that exits with status 1 after writing a line to its standard
error: no output, the command string, and the error text with the trimmed line. -/
theorem Run_failure_text_witness :
    (Run goLib (fun _ => Output (Ending.exitedNonZero "exit status 1" " no servers\n"))
      (NewRunner 5000000000 32768) (examplePayload "1.1.1.1" "example.com" "A" "")).1 = [] ∧
    (Run goLib (fun _ => Output (Ending.exitedNonZero "exit status 1" " no servers\n"))
      (NewRunner 5000000000 32768) (examplePayload "1.1.1.1" "example.com" "A" "")).2.2 =
      some ("kdig failed: " ++ "exit status 1" ++ ": " ++ TrimSpace " no servers\n") :=
  ⟨(Run_failure_text goLib
      (fun _ => Output (Ending.exitedNonZero "exit status 1" " no servers\n"))
      (NewRunner 5000000000 32768) (examplePayload "1.1.1.1" "example.com" "A" "")
      "exit status 1" (some " no servers\n") rfl).1.1,
    (Run_failure_text goLib
      (fun _ => Output (Ending.exitedNonZero "exit status 1" " no servers\n"))
      (NewRunner 5000000000 32768) (examplePayload "1.1.1.1" "example.com" "A" "")
      "exit status 1" (some " no servers\n") rfl).1.2.2.2.2.1 " no servers\n" rfl (by decide)⟩

end Wdns
